import Mathlib

set_option autoImplicit false

namespace Build

/-- PPath models a `pathlib` POSIX path: an absoluteness flag plus the list of
literal path components (empty components and `"."` are normalized away, `".."`
is kept, exactly as `pathlib` parses path strings). -/
structure PPath where
  absFlag : Bool
  parts : List String
deriving DecidableEq, Repr

/-- String rendering of a path, as Python `str(Path(...))` produces it:
a leading slash for absolute paths, `"."` for the empty relative path. -/
def PPath.pstr (p : PPath) : String :=
  if p.absFlag then "/" ++ String.intercalate "/" p.parts
  else if p.parts = [] then "."
  else String.intercalate "/" p.parts

/-- Python `s.startswith(pre)`, implemented structurally over the character
lists so that it evaluates inside the kernel. -/
def strStartsWith (s pre : String) : Bool :=
  pre.data.isPrefixOf s.data

/-- Python `s.endswith(suf)`, implemented structurally over the character
lists. -/
def strEndsWith (s suf : String) : Bool :=
  suf.data.isSuffixOf s.data

/-- Python `s.split("/")` on the character list: the segments between slashes
(adjacent and border slashes produce empty segments, as in Python). -/
def splitSlashChars : List Char → List (List Char)
  | [] => [[]]
  | c :: rest =>
    match splitSlashChars rest with
    | [] => [[]]
    | seg :: segs =>
      if c = '/' then [] :: seg :: segs else (c :: seg) :: segs

/-- Components of a path string as `pathlib` parses them: split on `/`,
dropping empty components and `"."`. -/
def relParts (s : String) : List String :=
  ((splitSlashChars s.data).map (fun l => String.mk l)).filter
    (fun c => !(c == "") && !(c == "."))

/-- Python `pathlib.Path(s)` built from a string (absolute iff it starts with `/`). -/
def mkPath (s : String) : PPath :=
  ⟨strStartsWith s "/", relParts s⟩

/-- Python `p / s` for a string `s`: an absolute `s` replaces `p`, a relative `s`
appends its components. -/
def PPath.joinStr (p : PPath) (s : String) : PPath :=
  if strStartsWith s "/" then ⟨true, relParts s⟩
  else ⟨p.absFlag, p.parts ++ relParts s⟩

/-- Python `p / q` for two paths. -/
def PPath.join (p q : PPath) : PPath :=
  if q.absFlag then q else ⟨p.absFlag, p.parts ++ q.parts⟩

/-- Python `p.parent`: drop the final component. -/
def PPath.parent (p : PPath) : PPath :=
  ⟨p.absFlag, p.parts.dropLast⟩

/-- Python `p.name`: the final component (empty for a path with no components). -/
def PPath.name (p : PPath) : String :=
  p.parts.getLast?.getD ""

/-- Python `p.with_name n`: replace the final component. -/
def PPath.withName (p : PPath) (n : String) : PPath :=
  ⟨p.absFlag, p.parts.dropLast ++ [n]⟩

mutual
/-- Value models a Python/YAML value as it occurs in the build's descriptor
dictionaries: strings, integers, booleans, `None`, `pathlib` paths (`root_path`),
lists, nested dictionaries (association lists keyed by strings; Python
dictionaries have unique keys, so lookup takes the first binding), and `Node`
objects (stored under `"post_nodes"` during index synthesis). -/
inductive Value where
  | str : String → Value
  | int : Int → Value
  | bool : Bool → Value
  | noneV : Value
  | path : PPath → Value
  | list : List Value → Value
  | dict : List (String × Value) → Value
  | node : Node → Value

/-- Node models the Python `Node` object: the registered class it was
constructed through, its `_path`, its `_attr` dictionary (the descriptor minus
the `children` key) and its `_children`. -/
inductive Node where
  | mk : String → PPath → List (String × Value) → List Node → Node
end

/-- Dict is the association-list model of a Python dictionary with `Value` values. -/
abbrev Dict := List (String × Value)

def Node.cls : Node → String
  | .mk c _ _ _ => c

def Node.ppath : Node → PPath
  | .mk _ p _ _ => p

def Node.attr : Node → Dict
  | .mk _ _ a _ => a

def Node.children : Node → List Node
  | .mk _ _ _ c => c

/-- Python `d.get(k)` / `d[k]`: the first binding of the key. -/
def alget {β : Type} (d : List (String × β)) (k : String) : Option β :=
  match d with
  | [] => Option.none
  | (k', v) :: rest => if k' = k then some v else alget rest k

/-- Python `d[k] = v` on an insertion-ordered dictionary, also the effect of a
later entry in a dict literal: an existing key keeps its position and gets the
new value, a new key is appended at the end. -/
def alset {β : Type} (d : List (String × β)) (k : String) (v : β) : List (String × β) :=
  match d with
  | [] => [(k, v)]
  | (k', v') :: rest => if k' = k then (k, v) :: rest else (k', v') :: alset rest k v

/-- Effect of Python `d.pop(k, default)` on the dictionary `d`: the binding of
`k` is removed (dictionaries have unique keys, so filtering equals removing the
one binding). -/
def dremove (d : Dict) (k : String) : Dict :=
  d.filter (fun kv => !(kv.1 == k))

/-- Python truthiness of a value. -/
def truthy : Value → Bool
  | .str s => !(s == "")
  | .int n => !(n == 0)
  | .bool b => b
  | .noneV => false
  | .path _ => true
  | .list l => !l.isEmpty
  | .dict d => !d.isEmpty
  | .node _ => true

/-- Node.register's derivation of a type tag from a class name (build.py lines
108–117): insert `_` before every interior uppercase letter while lowercasing,
then strip a leading `_` and a trailing `_node`. -/
def camelToTag (className : String) : String :=
  let cs := (className.data.enum.map
    (fun ic => (if ic.1 > 0 && ic.2.isUpper then ['_'] else []) ++ [ic.2.toLower])).flatten
  let cs := if cs.head? = some '_' then cs.tail else cs
  if strEndsWith (String.mk cs) "_node" then String.mk (cs.take (cs.length - 5))
  else String.mk cs

/-- Node.register (build.py line 119): `REGISTERED_NODE_TYPES[tag] = node_class`,
a plain dictionary assignment, so a duplicate tag silently overwrites. The class
is identified by its name. -/
def registerClass (reg : List (String × String)) (className : String) :
    List (String × String) :=
  alset reg (camelToTag className) className

/-- The classes passed to `@Node.register` in source order (build.py). -/
def registeredClassList : List String :=
  ["DataNode", "BaseNode", "HeadNode", "HeaderNode", "FooterNode", "PageNode",
   "PostNode", "H1Node", "H2Node", "H3Node", "H4Node", "H5Node", "H6Node",
   "PNode", "DividerNode", "ImgNode", "FigureNode", "VideoNode", "TimestampNode",
   "PostListNode", "TimelineNode", "TimelineItemNode", "TableNode"]

/-- The `REGISTERED_NODE_TYPES` mapping after all decorators ran. -/
def REGISTERED_NODE_TYPES : List (String × String) :=
  registeredClassList.foldl registerClass []

/-- Errors raised during the build. `valueError` models the `ValueError` from
`Node.create` on a descriptor without `"type"` and from `Site.get_attr` on a
missing path; `keyError` models the uncaught `KeyError` of
`REGISTERED_NODE_TYPES[data["type"]]` on an unregistered tag; `typeError`
models the Python `TypeError`/`ValueError` family hit on malformed values
(non-dictionary child descriptors, a `BaseNode` without a `root_path` path
value, an index specification without a usable `path` or `page_size`, and a
date-sort comparison against a missing date). -/
inductive BuildErr where
  | valueError
  | keyError
  | typeError
deriving DecidableEq, Repr

mutual
/-- Structural size of a value, used only as the recursion-depth budget of the
factory. -/
def valueSize : Value → Nat
  | .str _ => 1
  | .int _ => 1
  | .bool _ => 1
  | .noneV => 1
  | .path _ => 1
  | .list l => 1 + valueListSize l
  | .dict d => 1 + dictSize d
  | .node n => 1 + nodeSize n

def valueListSize : List Value → Nat
  | [] => 1
  | v :: rest => 1 + valueSize v + valueListSize rest

def dictSize : List (String × Value) → Nat
  | [] => 1
  | kv :: rest => 1 + valueSize kv.2 + dictSize rest

def nodeSize : Node → Nat
  | .mk _ _ attr cs => 1 + dictSize attr + nodeListSize cs

def nodeListSize : List Node → Nat
  | [] => 1
  | n :: rest => 1 + nodeSize n + nodeListSize rest
end

/-- Tail of `Node.__init__` / `BaseNode.__init__` after the children have been
built: store the popped dictionary as `_attr`; for `BaseNode`, additionally
evaluate `data.get("root_path") / path` (build.py line 184), which needs a path
value under `root_path` (otherwise Python raises `TypeError`). -/
def Node.finishInit (cls : String) (path : PPath) (data : Dict) (cs : List Node) :
    Except BuildErr Node :=
  let attr := dremove data "children"
  if cls = "BaseNode" then
    match alget attr "root_path" with
    | some (.path _) => pure (Node.mk cls path attr cs)
    | _ => .error .typeError
  else
    pure (Node.mk cls path attr cs)

mutual
/-- Fuel-indexed body of `Node.create` (build.py lines 123–130): raise
`ValueError` when the descriptor has no `"type"` key, look the tag up in
`REGISTERED_NODE_TYPES` (an uncaught `KeyError` when the tag is unregistered; a
non-string tag likewise fails the dictionary lookup), otherwise invoke the
class's constructor with `(path, data)`. The fuel only bounds the recursion
depth; `Node.create` passes `dictSize data + 1`, which always suffices because
every recursive step loses at least two units of descriptor size while
consuming one unit of fuel (the fuel-irrelevance theorem below makes that
precise, so the fuel-exhaustion branches are unreachable from `Node.create`). -/
def createF : Nat → PPath → Dict → Except BuildErr Node
  | 0, _, _ => .error .typeError
  | fuel + 1, path, data =>
    match alget data "type" with
    | Option.none => .error .valueError
    | some t =>
      match t with
      | .str tagStr =>
        match alget REGISTERED_NODE_TYPES tagStr with
        | Option.none => .error .keyError
        | some cls => constructF fuel cls path data
      | _ => .error .keyError

/-- Fuel-indexed shared `Node.__init__` body (build.py lines 151–156): pop
`children` (defaulting to the empty sequence), recursively create the child
nodes against the same path, and store the remaining dictionary as `_attr`. -/
def constructF : Nat → String → PPath → Dict → Except BuildErr Node
  | 0, _, _, _ => .error .typeError
  | fuel + 1, cls, path, data =>
    match alget data "children" with
    | Option.none => Node.finishInit cls path data []
    | some (.list l) => do
      let cs ← createChildrenF fuel path l
      Node.finishInit cls path data cs
    | some _ => .error .typeError

/-- Fuel-indexed child construction
`[Node.create(path, child) for child in children]`: every child descriptor must
itself be a dictionary (Python raises a `TypeError` otherwise). -/
def createChildrenF : Nat → PPath → List Value → Except BuildErr (List Node)
  | 0, _, _ => .error .typeError
  | fuel + 1, path, l =>
    match l with
    | [] => pure []
    | v :: rest =>
      match v with
      | .dict d => do
        let n ← createF fuel path d
        let ns ← createChildrenF fuel path rest
        pure (n :: ns)
      | _ => .error .typeError
end

/-- Node.create with its recursion-depth budget instantiated. -/
def Node.create (path : PPath) (data : Dict) : Except BuildErr Node :=
  createF (dictSize data + 1) path data

/-- The constructor call `node_class(path, data)` with the same budget
`Node.create` hands it. -/
def Node.construct (cls : String) (path : PPath) (data : Dict) :
    Except BuildErr Node :=
  constructF (dictSize data) cls path data

/-- State of the caller's descriptor dictionary after `Node.__init__` ran on
it: `data.pop("children", [])` (build.py line 152) removes the `children`
binding from the dictionary in place, and the node keeps that same dictionary
object as `_attr`. -/
def descriptorAfterInit (data : Dict) : Dict :=
  dremove data "children"

/-- Registry is the model of `Site._nodes`: an insertion-ordered dictionary
from output-path strings to nodes. -/
abbrev Registry := List (String × Node)

/-- Node.path property (build.py lines 162–164): `"/" + str(self._path)`. -/
def Node.pathStr (n : Node) : String :=
  "/" ++ n.ppath.pstr

/-- Derived output file name (build.py line 31): `yaml_path.name[1:-4] + "html"`
turns `_name.yaml` into `name.html`. -/
def htmlNameOf (yamlName : String) : String :=
  (yamlName.drop 1).dropRight 4 ++ "html"

/-- Normalization at build.py lines 37–43: a parsed content whose `type` is not
`"data"` is rebuilt as the dict literal `{**copy.deepcopy(content),
"type": "base", "root_path": root, "children": [content]}` (deep copies are the
identity on pure values); a `"data"` content is kept as is. -/
def wrapContent (rootPath : PPath) (content : Dict) : Dict :=
  match alget content "type" with
  | some (.str "data") => content
  | _ =>
    alset (alset (alset content "type" (.str "base"))
      "root_path" (.path rootPath)) "children" (.list [.dict content])

/-- Loop body of Site.create_base_nodes for one discovered descriptor file:
derive the paired output path, normalize the content, factory-build the tree
and insert it into the registry keyed by the node's path property. -/
def baseLoopBody (rootPath : PPath) (nodes : Registry) (file : PPath × Dict) :
    Except BuildErr Registry := do
  let htmlPath := file.1.withName (htmlNameOf file.1.name)
  let node ← Node.create htmlPath (wrapContent rootPath file.2)
  pure (alset nodes node.pathStr node)

/-- Site.create_base_nodes (build.py lines 29–47), with file discovery and YAML
parsing (external collaborators) abstracted into the input list of
(descriptor path, parsed content) pairs in glob order. -/
def create_base_nodes (rootPath : PPath) (files : List (PPath × Dict)) :
    Except BuildErr Registry :=
  files.foldlM (baseLoopBody rootPath) []

/-- Site.get_attr (build.py lines 23–27): raise `ValueError` when the path is
absent, otherwise return the node's attribute dictionary (`Node.attr` deep
copies, which is the identity here). -/
def get_attr (nodes : Registry) (path : String) : Except BuildErr Dict :=
  match alget nodes path with
  | some n => pure n.attr
  | Option.none => .error .valueError

/-- Sort key access `node.attr.get("date")` of build.py line 61. The build's
dates are modeled as strings (ISO dates compare lexicographically exactly like
calendar dates); a missing or non-string date yields no key. -/
def Node.dateKey (n : Node) : Option String :=
  match alget n.attr "date" with
  | some (.str s) => some s
  | _ => Option.none

/-- Date-descending order on nodes: the sort key of the later node is at most
the sort key of the earlier one. -/
def dateDescRel (a b : Node) : Prop :=
  b.dateKey.getD "" ≤ a.dateKey.getD ""

instance decidableDateDescRel : DecidableRel dateDescRel := fun a b =>
  inferInstanceAs (Decidable (_ ≤ _))

instance totalDateDescRel : IsTotal Node dateDescRel :=
  ⟨fun a b => le_total _ _⟩

instance transDateDescRel : IsTrans Node dateDescRel :=
  ⟨fun _ _ _ hab hbc => le_trans hbc hab⟩

/-- Stable date-descending sort of build.py line 61
(`post_nodes.sort(key=..., reverse=True)`): CPython's sort is stable and
`reverse=True` keeps equal keys in their original order, which is exactly
`List.insertionSort` with the relation `key b ≤ key a`. -/
def sortByDateDesc (l : List Node) : List Node :=
  l.insertionSort dateDescRel

/-- Member selection (build.py lines 56–59): every entry of the registry, in
insertion order, whose output-path key starts with the page root. -/
def selectMembers (nodes : Registry) (pageRoot : String) : List Node :=
  (nodes.filter (fun kv => strStartsWith kv.1 pageRoot)).map (fun kv => kv.2)

/-- Fuel-indexed body of `itertools.batched`: successive chunks of `n`
elements (the final one possibly shorter). The fuel only bounds the number of
chunks; `batched` passes the list length, which suffices because every chunk
consumes at least one element when `n ≥ 1`. -/
def batchedF {α : Type} (n : Nat) : Nat → List α → List (List α)
  | _, [] => []
  | 0, _ :: _ => []
  | fuel + 1, x :: rest => ((x :: rest).take n) :: batchedF n fuel ((x :: rest).drop n)

/-- itertools.batched (build.py line 70). Python raises `ValueError` for
`n < 1`; the caller guards that case before calling, so the `n = 0` branch here
is unreachable from the build. -/
def batched {α : Type} (n : Nat) (l : List α) : List (List α) :=
  if n = 0 then [] else batchedF n l.length l

/-- Ceiling division, the page count `ceil(N / P)` of the specification. -/
def ceilDiv (a b : Nat) : Nat :=
  (a + b - 1) / b

/-- Fuel-indexed body of Python `range(start, stop, step)` for a positive
step; the fuel bounds the number of produced elements, and `stop` always
suffices for a start of `0` and a step of at least one. -/
def pyRangeF (stop step : Nat) : Nat → Nat → List Nat
  | 0, _ => []
  | fuel + 1, start =>
    if start < stop then start :: pyRangeF stop step fuel (start + step) else []

/-- Python `range(0, stop, step)` as a list (empty for a zero step; the build
never calls it with one, because the page size is checked first). -/
def pyRange (stop step : Nat) : List Nat :=
  if step = 0 then [] else pyRangeF stop step stop 0

/-- Page link string of build.py line 67: `f"{page_root}indexes/index_{i}.html"`. -/
def pageLink (pageRoot : String) (i : Nat) : String :=
  pageRoot ++ "indexes/index_" ++ toString i ++ ".html"

/-- Synthesized page descriptor (build.py lines 71–82). -/
def pageData (rootPath : PPath) (chunk : List Node) (i : Nat) (links : List String) :
    Dict :=
  [("type", .str "base"),
   ("root_path", .path rootPath),
   ("children", .list [ .dict [
      ("type", .str "post_list"),
      ("post_nodes", .list (chunk.map Value.node)),
      ("page_index", .int i),
      ("page_links", .list (links.map Value.str))] ])]

/-- The output path of page `i`, `pathlib.Path("." + page_root) / "indexes" /
f"index_{i}.html"` (build.py line 89). -/
def indexPagePath (pageRoot : String) (i : Nat) : PPath :=
  ((mkPath ("." ++ pageRoot)).joinStr "indexes").joinStr
    ("index_" ++ toString i ++ ".html")

/-- Page links of build.py lines 66–68:
`[f"{page_root}indexes/index_{i}.html" for i, _ in enumerate(range(0, N, P))]`. -/
def linksFor (pageRoot : String) (memberCount pageSize : Nat) : List String :=
  (pyRange memberCount pageSize).enum.map (fun ip => pageLink pageRoot ip.1)

/-- Body of the per-page loop (build.py lines 70–93): for page `i`, build the
synthetic descriptor; if the specification is home-marked and this is page 0,
additionally create a node from a deep copy of the descriptor (deep copies are
the identity here) and register it at `./index.html`; then create the page node
at its index path and register it. -/
def indexLoopBody (rootPath : PPath) (pageRoot : String) (links : List String)
    (isHomeSpec : Bool) (acc : Registry) (ichunk : Nat × List Node) :
    Except BuildErr Registry := do
  let data := pageData rootPath ichunk.2 ichunk.1 links
  let acc ← if isHomeSpec && ichunk.1 = 0 then do
      let node ← Node.create (mkPath "./index.html") data
      pure (alset acc node.pathStr node)
    else pure acc
  let node ← Node.create (indexPagePath pageRoot ichunk.1) data
  pure (alset acc node.pathStr node)

/-- Processing of one index specification: the body of the loop at build.py
lines 52–93, acting on the registry as it stands when the specification is
reached. The `mkdir` call of line 64 only touches the file system and is
omitted. Python raises a `TypeError` when the specification has no `path`
string, an uncaught `ValueError` when `itertools.batched` receives a page size
below 1, and a `TypeError` when the date sort compares a missing date; all
become `typeError`. -/
def processIndex (rootPath : PPath) (nodes : Registry) (spec : Dict) :
    Except BuildErr Registry := do
  let pageRoot ← match alget spec "path" with
    | some (.str s) => pure s
    | _ => Except.error BuildErr.typeError
  let pageSize ← match alget spec "page_size" with
    | Option.none => pure 20
    | some (.int (Int.ofNat p)) => pure p
    | _ => Except.error BuildErr.typeError
  if pageSize = 0 then Except.error BuildErr.typeError else
  let members := selectMembers nodes pageRoot
  if members.length ≥ 2 && members.any (fun n => n.dateKey.isNone) then
    Except.error BuildErr.typeError
  else
  let sorted := sortByDateDesc members
  let links := linksFor pageRoot sorted.length pageSize
  let isHomeSpec := truthy ((alget spec "home").getD (.bool false))
  (batched pageSize sorted).enum.foldlM
    (indexLoopBody rootPath pageRoot links isHomeSpec) nodes

/-- The loop of Site.create_index_nodes over all specifications, each one seeing
the registry left by the previous one. -/
def processIndexes (rootPath : PPath) (nodes : Registry) (specs : List Dict) :
    Except BuildErr Registry :=
  specs.foldlM (processIndex rootPath) nodes

/-- Site.create_index_nodes (build.py lines 49–93): read the specification list
from the `/site.html` node (default empty) and process each specification. -/
def create_index_nodes (rootPath : PPath) (nodes : Registry) :
    Except BuildErr Registry := do
  let siteAttr ← get_attr nodes "/site.html"
  match (alget siteAttr "indexes").getD (.list []) with
  | .list l => do
    let specs ← l.mapM (fun v => match v with
      | .dict d => pure d
      | _ => Except.error BuildErr.typeError)
    processIndexes rootPath nodes specs
  | _ => Except.error BuildErr.typeError

/-- The whole two-phase build (Site.__init__, build.py lines 12–21): primary
load over the discovered descriptor files, then index synthesis. -/
def buildSite (rootPath : PPath) (files : List (PPath × Dict)) :
    Except BuildErr Registry := do
  let base ← create_base_nodes rootPath files
  create_index_nodes rootPath base

/-- Node.process_url (build.py lines 141–149): full URLs and site-absolute
links pass through, every other link is joined onto the referencing document's
own directory. -/
def process_url (html_path : PPath) (url : String) : String :=
  if strStartsWith url "http://" || strStartsWith url "https://" then url
  else if strStartsWith url "/" then url
  else (html_path.parent.joinStr url).pstr

/-- The node value `Node.create` produces for the synthetic page descriptor
`pageData root chunk i links`: a `BaseNode` page wrapper whose single child is
the `PostListNode` carrying the page's member chunk, page index and link list
(proved below as `create_pageData`). -/
def mkPageNode (p : PPath) (rootPath : PPath) (chunk : List Node) (i : Nat)
    (links : List String) : Node :=
  Node.mk "BaseNode" p
    [("type", Value.str "base"), ("root_path", Value.path rootPath)]
    [Node.mk "PostListNode" p
      [("type", Value.str "post_list"),
       ("post_nodes", Value.list (chunk.map Value.node)),
       ("page_index", Value.int i),
       ("page_links", Value.list (links.map Value.str))] []]

/-- Unwrap a list of values that are all node references; `Option.none` if any
is not a node. -/
def unwrapNodes : List Value → Option (List Node)
  | [] => some []
  | Value.node n :: rest => (unwrapNodes rest).map (fun ns => n :: ns)
  | _ => Option.none

/-- The member list a synthesized index page carries: the `post_nodes` field of
its single `post_list` child. -/
def Node.pageMembers (n : Node) : Option (List Node) :=
  match n.children with
  | [c] =>
    match alget c.attr "post_nodes" with
    | some (Value.list vs) => unwrapNodes vs
    | _ => Option.none
  | _ => Option.none

/-- The registry entry the loop inserts for page `i` holding `chunk`. -/
def pageEntry (rootPath : PPath) (pageRoot : String) (links : List String)
    (ichunk : Nat × List Node) : String × Node :=
  let n := mkPageNode (indexPagePath pageRoot ichunk.1) rootPath ichunk.2
    ichunk.1 links
  (n.pathStr, n)

/-- All page entries of one specification, in loop order. -/
def pageEntries (rootPath : PPath) (pageRoot : String) (links : List String)
    (chunks : List (List Node)) : List (String × Node) :=
  chunks.enum.map (pageEntry rootPath pageRoot links)

/-- The extra home-alias entry: inserted before page 0's entry when the
specification is home-marked and at least one page exists. -/
def homeEntries (rootPath : PPath) (isHomeSpec : Bool) (links : List String)
    (chunks : List (List Node)) : List (String × Node) :=
  match chunks with
  | [] => []
  | c0 :: _ =>
    if isHomeSpec then
      let n := mkPageNode (mkPath "./index.html") rootPath c0 0 links
      [(n.pathStr, n)]
    else []

/-- Pure counterpart of `indexLoopBody` (which, as proved below, never fails). -/
def pageStep (rootPath : PPath) (pageRoot : String) (links : List String)
    (isHomeSpec : Bool) (acc : Registry) (ichunk : Nat × List Node) : Registry :=
  let acc1 :=
    if isHomeSpec && ichunk.1 = 0 then
      let n := mkPageNode (mkPath "./index.html") rootPath ichunk.2 ichunk.1 links
      alset acc n.pathStr n
    else acc
  let n := mkPageNode (indexPagePath pageRoot ichunk.1) rootPath ichunk.2
    ichunk.1 links
  alset acc1 n.pathStr n

/-- Insert a list of (key, node) entries into the registry in order. -/
def insertEntries (r : Registry) (es : List (String × Node)) : Registry :=
  es.foldl (fun acc kv => alset acc kv.1 kv.2) r

mutual
/-- Python `str(v)` for the values interpolated into the render templates
(f-string interpolation calls `str`). Lists and dictionaries print their
`repr`; a `Node` object would print its class and address, which no render
path reaches — it is modeled by a fixed placeholder. -/
def pyStr : Value → String
  | .str s => s
  | .int n => toString n
  | .bool b => if b then "True" else "False"
  | .noneV => "None"
  | .path p => p.pstr
  | .list l => "[" ++ String.intercalate ", " (pyReprList l) ++ "]"
  | .dict d => "\x7b" ++ String.intercalate ", " (pyReprDict d) ++ "\x7d"
  | .node _ => "<Node object>"

/-- Python `repr(v)` (used by `str` on containers): strings are quoted. -/
def pyRepr : Value → String
  | .str s => "\x27" ++ s ++ "\x27"
  | .int n => toString n
  | .bool b => if b then "True" else "False"
  | .noneV => "None"
  | .path p => "PosixPath(\x27" ++ p.pstr ++ "\x27)"
  | .list l => "[" ++ String.intercalate ", " (pyReprList l) ++ "]"
  | .dict d => "\x7b" ++ String.intercalate ", " (pyReprDict d) ++ "\x7d"
  | .node _ => "<Node object>"

def pyReprList : List Value → List String
  | [] => []
  | v :: rest => pyRepr v :: pyReprList rest

def pyReprDict : List (String × Value) → List String
  | [] => []
  | kv :: rest => ("\x27" ++ kv.1 ++ "\x27: " ++ pyRepr kv.2) :: pyReprDict rest
end

/-- Python `sep.join(v)`: `v` must be a list of strings (Python raises a
`TypeError` on a non-string element or a non-sequence). -/
def pyJoin (sep : String) : Value → Except BuildErr String
  | .list l => do
    let ss ← l.mapM (fun v => match v with
      | Value.str s => pure s
      | _ => Except.error BuildErr.typeError)
    pure (String.intercalate sep ss)
  | _ => Except.error BuildErr.typeError

/-- Python `l[i]` with negative-index wrapping; out of range raises
(`IndexError`). -/
def pyIndex (l : List Value) (i : Int) : Except BuildErr Value :=
  let j : Int := if i < 0 then (l.length : Int) + i else i
  if h : 0 ≤ j ∧ j < (l.length : Int) then pure (l.get ⟨j.toNat, by omega⟩)
  else Except.error BuildErr.typeError

/-- FooterNode.render (build.py lines 362–366). -/
def renderFooter : String := ""

/-- TimestampNode.render (build.py lines 546–570). -/
def renderTimestamp (attr : Dict) : String :=
  let date := (alget attr "date").getD (Value.str "")
  let time := (alget attr "time").getD (Value.str "")
  if truthy date then
    "\n                <span class=\"text-muted pb-2\">\n                    <i class=\"bi bi-calendar-event me-1\" style=\"font-size: 1rem; color: cornflowerblue;\"></i>\n                    "
      ++ pyStr date ++ " " ++ pyStr time ++ "\n                </span>\n            "
  else if truthy time then
    "\n                <span class=\"text-muted pb-2\">\n                    <i class=\"bi bi-clock me-1\" style=\"font-size: 1rem; color: cornflowerblue;\"></i>\n                    "
      ++ pyStr time ++ "\n                </span>\n            "
  else ""

/-- The heading nodes H1Node–H6Node (build.py lines 452–485), parameterized by
the level digit. -/
def renderHn (level : String) (attr : Dict) : String :=
  "<h" ++ level ++ " class=\"mb-2\">" ++ pyStr ((alget attr "text").getD Value.noneV)
    ++ "</h" ++ level ++ ">"

/-- ImgNode.render (build.py lines 502–508). -/
def renderImg (attr : Dict) : String :=
  let src := (alget attr "src").getD (Value.str "#")
  let alt := (alget attr "alt").getD (Value.str "")
  "<img src=\"" ++ pyStr src ++ "\" class=\"img-fluid w-100 rounded pb-4\" alt=\""
    ++ pyStr alt ++ "\">"

/-- FigureNode.render (build.py lines 511–522). -/
def renderFigure (attr : Dict) : String :=
  let src := (alget attr "src").getD (Value.str "#")
  let caption := (alget attr "caption").getD (Value.str "")
  "\n            <figure class=\"figure w-100 mb-3\">\n                <img src=\""
    ++ pyStr src ++ "\" class=\"figure-img img-fluid w-100 rounded\" alt=\""
    ++ pyStr caption ++ "\" />\n                <figcaption class=\"figure-caption\">"
    ++ pyStr caption ++ "</figcaption>\n            </figure>"

/-- VideoNode.render (build.py lines 525–543). -/
def renderVideo (attr : Dict) : String :=
  let src := (alget attr "src").getD (Value.str "#")
  let caption := (alget attr "caption").getD (Value.str "")
  "\n            <figure class=\"figure w-100 mb-3\">\n                <div class=\"ratio ratio-16x9\">\n                    <iframe src=\""
    ++ pyStr src ++ "\" title=\"" ++ pyStr caption
    ++ "\" frameborder=\"0\" allowfullscreen></iframe>\n                </div>\n                <figcaption class=\"figure-caption\">"
    ++ pyStr caption ++ "</figcaption>\n            </figure>"

/-- TimelineNode.render's wrapper around the joined child fragments (build.py
lines 652–660). -/
def renderTimelineWrap (children : String) : String :=
  "\n        <div class=\"py-5\">\n            <ul class=\"timeline\">\n                "
    ++ children ++ "\n            </ul>\n        </div>\n        "

/-- TimelineItemNode.render (build.py lines 662–687) given the pre-rendered
child fragments (`render_children`); the separator appears exactly when the
joined child fragment string is non-empty (Python truthiness of the string). -/
def renderTimelineItem (attr : Dict) (children : String) : String :=
  let icon := "<span class=\"timeline-icon\">"
    ++ pyStr ((alget attr "icon").getD (Value.str "✅")) ++ "</span>"
  let nameHtml := "<h5 class=\"fw-bold\">"
    ++ pyStr ((alget attr "name").getD (Value.str "")) ++ "</h5>"
  let stamp := renderTimestamp
    [("date", (alget attr "date").getD (Value.str "")),
     ("time", (alget attr "time").getD (Value.str ""))]
  "\n            <li class=\"timeline-item mb-4\">\n                " ++ icon
    ++ "\n                " ++ nameHtml ++ "\n                " ++ stamp
    ++ "\n                "
    ++ (if children == "" then "" else "<div class=\"mb-3\"></div>")
    ++ "\n                " ++ children ++ "\n            </li>\n        "

/-- TableNode.render (build.py lines 690–729). Python's `in`/iteration raise a
`TypeError` on non-sequence values, modeled as `typeError`. -/
def renderTable (attr : Dict) : Except BuildErr String := do
  let modsVal := (alget attr "mods").getD (Value.list [])
  let mods ← match modsVal with
    | Value.list l => pure l
    | _ => Except.error BuildErr.typeError
  let dataVal := (alget attr "data").getD (Value.dict [])
  let dd ← match dataVal with
    | Value.dict d => pure d
    | _ => Except.error BuildErr.typeError
  let headVal := (alget dd "head").getD (Value.list [])
  let bodyVal := (alget dd "body").getD (Value.list [])
  let hasMod := fun (m : String) => mods.any (fun v => match v with
    | Value.str s => s == m
    | _ => false)
  let tableClass := "table"
    ++ (if hasMod "bordered" then " table-bordered" else "")
    ++ (if hasMod "hover" then " table-hover" else "")
    ++ (if hasMod "striped" then " table-striped" else "")
  let html0 := "<table class=\"" ++ tableClass ++ " pb-2\">"
  let html1 ← if truthy headVal then
      match headVal with
      | Value.list hl =>
        pure (html0 ++ "<thead><tr>"
          ++ String.join (hl.map (fun col => "<th scope=\"col\">" ++ pyStr col ++ "</th>"))
          ++ "</tr></thead>")
      | _ => Except.error BuildErr.typeError
    else pure html0
  let html2 ← if truthy bodyVal then
      match bodyVal with
      | Value.list rows => do
        let rs ← rows.mapM (fun row => match row with
          | Value.list cols => pure ("<tr>"
              ++ String.join (cols.map (fun col => "<td>" ++ pyStr col ++ "</td>"))
              ++ "</tr>")
          | _ => Except.error BuildErr.typeError)
        pure (html1 ++ "<tbody>" ++ String.join rs ++ "</tbody>")
      | _ => Except.error BuildErr.typeError
    else pure html1
  pure (html2 ++ "</table>")

/-- HeadNode.render (build.py lines 221–296). The default argument
`site.get_attr("/site.html").get("name")` is evaluated eagerly by Python, so a
missing `/site.html` fails even when a `title` is present. -/
def renderHead (reg : Registry) (attr : Dict) : Except BuildErr String := do
  let siteAttr ← get_attr reg "/site.html"
  let cssTimeline :=
    "\n            .timeline \x7b\n                border-left: 1px solid hsl(0, 0%, 80%);\n                position: relative;\n                list-style: none;\n                margin-left: 25px;\n                margin-right: 25px;\n            \x7d\n\n            .timeline .timeline-item \x7b\n                position: relative;\n            \x7d\n\n            .timeline .timeline-item:after \x7b\n                position: absolute;\n                display: block;\n                top: 0;\n            \x7d\n\n            .timeline .timeline-item:last-child:before \x7b\n                content: \x27\x27;\n                position: absolute;\n                left: -38px;\n                bottom: 0;\n                width: 11px;\n                height: 11px;\n                border-radius: 50%;\n                background-color: hsl(217, 88.2%, 30%);\n                border: 1px solid hsl(217, 88.2%, 60%);\n            \x7d\n\n            .timeline .timeline-icon \x7b\n                position: absolute;\n                left: -48px;\n                background-color: hsl(217, 88.2%, 10%);\n                color: hsl(217, 88.8%, 35.1%);\n                border-radius: 50%;\n                border: 1px solid hsl(217, 88.2%, 80%);\n                height: 31px;\n                width: 31px;\n                display: flex;\n                align-items: center;\n                justify-content: center;\n            \x7d\n        "
  let title := (alget attr "title").getD ((alget siteAttr "name").getD Value.noneV)
  pure ("\n            <head>\n                <meta charset=\"utf-8\">\n                <meta http-equiv=\"X-UA-Compatible\" content=\"IE=edge\">\n                <meta name=\"viewport\" content=\"width=device-width, initial-scale=1\">\n                <meta name=\"description\" content=\"description\">\n\n                <title>"
    ++ pyStr title
    ++ "</title>\n\n                <link rel=\"stylesheet\" href=\"https://cdn.jsdelivr.net/npm/bootstrap-icons@1.11.3/font/bootstrap-icons.min.css\">\n                <link href=\"https://cdn.jsdelivr.net/npm/bootstrap@5.3.3/dist/css/bootstrap.min.css\" rel=\"stylesheet\" integrity=\"sha384-QWTKZyjpPEjISv5WaRU9OFeRpok6YctnYmDr5pNlyT2bRjXh0JMhjY6hW+ALEwIH\" crossorigin=\"anonymous\">\n                <script src=\"https://cdn.jsdelivr.net/npm/bootstrap@5.3.3/dist/js/bootstrap.bundle.min.js\" integrity=\"sha384-YvpcrYf0tY3lHB60NNkmXc5s9fDVZLESaAA55NDzOxhy9GkcIdslK1eN7N6jIeHz\" crossorigin=\"anonymous\"></script>\n                <style>\n                    body \x7b\n                        min-height: 75rem;\n                        padding-top: 4.5rem;\n                    \x7d\n\n                    "
    ++ cssTimeline
    ++ "\n                </style>\n            </head>\n        ")

/-- HeaderNode.render (build.py lines 299–359). -/
def renderHeader (reg : Registry) : Except BuildErr String := do
  let attr ← get_attr reg "/site.html"
  let siteName := (alget attr "name").getD Value.noneV
  let pagesVal := (alget attr "pages").getD (Value.list [])
  let pages ← match pagesVal with
    | Value.list l => pure l
    | _ => Except.error BuildErr.typeError
  let pageItems ← pages.mapM (fun page => do
    let pd ← match page with
      | Value.dict d => pure d
      | _ => Except.error BuildErr.typeError
    if (alget pd "link").isSome then
      pure ("\n                    <li class=\"nav-item\">\n                        <a class=\"nav-link\" href=\""
        ++ pyStr ((alget pd "link").getD Value.noneV) ++ "\">"
        ++ pyStr ((alget pd "name").getD Value.noneV)
        ++ "</a>\n                    </li>\n                    ")
    else do
      let subsVal := (alget pd "list").getD (Value.list [])
      let subs ← match subsVal with
        | Value.list l => pure l
        | _ => Except.error BuildErr.typeError
      let subItems ← subs.mapM (fun sp => do
        let sd ← match sp with
          | Value.dict d => pure d
          | _ => Except.error BuildErr.typeError
        pure ("\n                    <li><a class=\"dropdown-item\" href=\""
          ++ pyStr ((alget sd "link").getD Value.noneV) ++ "\">"
          ++ pyStr ((alget sd "name").getD Value.noneV)
          ++ "</a></li>\n                    "))
      let subPageList := String.join subItems
      let headStr := "\n                    <a class=\"nav-link dropdown-toggle\" href=\"#\" role=\"button\" data-bs-toggle=\"dropdown\" aria-expanded=\"false\">\n                        "
        ++ pyStr ((alget pd "name").getD Value.noneV) ++ "\n                    </a>\n                "
      pure ("\n                    <li class=\"nav-item dropdown\">\n                        "
        ++ headStr ++ "\n                        <ul class=\"dropdown-menu\">\n                            "
        ++ subPageList
        ++ "\n                        </ul>\n                    </li>\n                "))
  pure ("\n            <nav class=\"navbar fixed-top navbar-expand-md bg-body-tertiary\">\n                <div class=\"container w-75\">\n\n                    <a class=\"navbar-brand\" href=\"/\">\n                        "
    ++ pyStr siteName
    ++ "\n                    </a>\n\n                    <button class=\"navbar-toggler\" type=\"button\" data-bs-toggle=\"collapse\" data-bs-target=\"#navbarNavDropdown\" aria-controls=\"navbarNavDropdown\" aria-expanded=\"false\" aria-label=\"Toggle navigation\">\n                        <span class=\"navbar-toggler-icon\"></span>\n                    </button>\n\n                    <div class=\"collapse navbar-collapse justify-content-end\" id=\"navbarNavDropdown\">\n                        <ul class=\"navbar-nav\">\n                            "
    ++ String.join pageItems
    ++ "\n                        </ul>\n                    </div>\n\n                </div>\n            </nav>\n        ")

/-- PageNode.render (build.py lines 369–411) given the pre-rendered child
fragments. -/
def renderPage (attr : Dict) (content : String) : Except BuildErr String := do
  let title := (alget attr "title").getD Value.noneV
  let authorsVal := (alget attr "authors").getD (Value.list [])
  let htmlAuthors ←
    if truthy authorsVal then do
      let astr ← pyJoin ", " authorsVal
      pure ("\n                <span>\n                    <i class=\"bi bi-person\" style=\"font-size: 1rem; color: cornflowerblue;\"></i>\n                    "
        ++ astr ++ "\n                </span>\n            ")
    else pure ""
  let tagsVal := (alget attr "tags").getD Value.noneV
  let htmlTags ←
    if truthy tagsVal then do
      let ts ← match tagsVal with
        | Value.list l => pure (l.map (fun tag =>
            "<span class=\"badge rounded-pill text-bg-info\">" ++ pyStr tag ++ "</span>"))
        | _ => Except.error BuildErr.typeError
      pure ("\n                <span class=\"ms-3\">\n                    <i class=\"bi bi-tags\" style=\"font-size: 1rem; color: cornflowerblue;\"></i>\n                    "
        ++ String.intercalate " " ts ++ "\n                </span>\n            ")
    else pure ""
  pure ("\n            <h1>" ++ pyStr title
    ++ "</h1>\n\n            <div class=\"mb-4\">\n                " ++ htmlAuthors
    ++ "\n                " ++ htmlTags ++ "\n            </div>\n\n            "
    ++ content ++ "\n        ")

/-- PostNode.render (build.py lines 414–449) given the pre-rendered child
fragments. The tag separator test `(" " if tags else "")` is performed on a
`map` object, which is always truthy, so the separator is always a space. -/
def renderPost (attr : Dict) (content : String) : Except BuildErr String := do
  let title := (alget attr "title").getD Value.noneV
  let authorsVal := (alget attr "authors").getD (Value.list [])
  let astr ← pyJoin (if truthy authorsVal then ", " else "") authorsVal
  let tagsVal := (alget attr "tags").getD (Value.list [])
  let ts ← match tagsVal with
    | Value.list l => pure (l.map (fun tag =>
        "<span class=\"badge rounded-pill text-bg-info\">" ++ pyStr tag ++ "</span>"))
    | _ => Except.error BuildErr.typeError
  let tstr := String.intercalate " " ts
  let stamp := renderTimestamp
    [("date", (alget attr "date").getD (Value.str "????-??"))]
  pure ("\n            <h1>" ++ pyStr title
    ++ "</h1>\n\n            <div class=\"mb-4\">\n                " ++ stamp
    ++ "\n\n                <span class=\"ms-3\">\n                    <i class=\"bi bi-person\" style=\"font-size: 1rem; color: cornflowerblue;\"></i>\n                    "
    ++ astr
    ++ "\n                </span>\n\n                <span class=\"ms-3\">\n                    <i class=\"bi bi-tags\" style=\"font-size: 1rem; color: cornflowerblue;\"></i>\n                    "
    ++ tstr ++ "\n                </span>\n            </div>\n\n            "
    ++ content ++ "\n        ")

/-- PostListNode.render (build.py lines 573–648). -/
def renderPostList (attr : Dict) : Except BuildErr String := do
  let postNodesVal := (alget attr "post_nodes").getD (Value.list [])
  let postNodes ← match postNodesVal with
    | Value.list l => l.mapM (fun v => match v with
        | Value.node n => pure n
        | _ => Except.error BuildErr.typeError)
    | _ => Except.error BuildErr.typeError
  let pageIndex ← match (alget attr "page_index").getD (Value.int 0) with
    | Value.int m => pure m
    | _ => Except.error BuildErr.typeError
  let pageLinks ← match (alget attr "page_links").getD (Value.list []) with
    | Value.list l => pure l
    | _ => Except.error BuildErr.typeError
  let postItems ← postNodes.mapM (fun pn => do
    let astr ← pyJoin ", " ((alget pn.attr "authors").getD (Value.list []))
    pure ("\n            <div class=\"mb-4\">\n                <a class=\"text-decoration-none\" href=\""
      ++ pn.pathStr ++ "\">\n                    <h2 class=\"card-title mb-1\">"
      ++ pyStr ((alget pn.attr "title").getD Value.noneV)
      ++ "</h2>\n\n                    <span>\n                        <i class=\"bi bi-calendar-event me-1\" style=\"font-size: 1rem; color: cornflowerblue;\"></i>\n                        "
      ++ pyStr ((alget pn.attr "date").getD Value.noneV)
      ++ "\n                    </span>\n                    <span class=\"mx-1\">By</span>\n                    <span>\n                        <i class=\"bi bi-person mx-1\" style=\"font-size: 1rem; color: cornflowerblue;\"></i>\n                        "
      ++ astr
      ++ "\n                    </span>\n                </a>\n            </div>\n            "))
  let postList := String.join postItems
  let pagination ←
    if pageLinks.length > 1 then do
      let pagList := String.join ((pageLinks.enum).map (fun il =>
        "\n                <li class=\"page-item "
          ++ (if (il.1 : Int) = pageIndex then "active" else "")
          ++ "\">\n                    <a class=\"page-link\" href=\"" ++ pyStr il.2
          ++ "\">" ++ toString il.1 ++ "</a>\n                </li>\n                "))
      let prev ← if pageIndex > 0 then do
          let v ← pyIndex pageLinks (pageIndex - 1)
          pure (pyStr v, "")
        else pure ("#", "disabled")
      let next ← if pageIndex < (pageLinks.length : Int) - 1 then do
          let v ← pyIndex pageLinks (pageIndex + 1)
          pure (pyStr v, "")
        else pure ("#", "disabled")
      pure ("\n                <hr class=\"my-4\">\n                <nav>\n                    <ul class=\"pagination\">\n                        <li class=\"page-item\">\n                            <a class=\"page-link "
        ++ prev.2 ++ "\" href=\"" ++ prev.1
        ++ "\">&laquo;</a>\n                        </li>\n                        "
        ++ pagList
        ++ "\n                        <li class=\"page-item\">\n                            <a class=\"page-link "
        ++ next.2 ++ "\" href=\"" ++ next.1
        ++ "\">&raquo;</a>\n                        </li>\n                    </ul>\n                </nav>\n            ")
    else pure ""
  pure ("\n            <h3 class=\"mb-4\">Posts</h3>\n            " ++ postList
    ++ "\n            " ++ pagination ++ "\n        ")

/-- The document shell assembled by BaseNode.render (build.py lines 197–209)
before pretty-printing. -/
def baseHtml (head header content footer : String) : String :=
  "\n            <!DOCTYPE html>\n            <html lang=\"en\" data-bs-theme=\"dark\">\n                "
    ++ head ++ "\n                <body>\n                " ++ header
    ++ "\n                <main class=\"container w-75\">\n                    "
    ++ content ++ "\n                </main>\n                " ++ footer
    ++ "\n                </body>\n            </html>\n            "

mutual
/-- The render pass (build.py lines 166–729), dispatched on the node's class.
`pretty` stands for the external `bs4.BeautifulSoup(...).prettify` call and
`ptext` for `Node.process_text` (spec section 6 treats both as external
collaborators). The result is the returned fragment together with the ordered
list of (file path, contents) writes performed; only BaseNode.render opens a
file (build.py lines 215–216), after rendering its children. -/
def renderN (pretty ptext : String → String) (reg : Registry) :
    Node → Except BuildErr (String × List (String × String))
  | Node.mk cls path attr cs =>
    match cls with
    | "BaseNode" => do
      let title ← match cs with
        | c0 :: _ =>
          if truthy ((alget c0.attr "title").getD Value.noneV) then
            pure ((alget c0.attr "title").getD Value.noneV)
          else do
            let siteAttr ← get_attr reg "/site.html"
            pure ((alget siteAttr "name").getD Value.noneV)
        | [] => do
          let siteAttr ← get_attr reg "/site.html"
          pure ((alget siteAttr "name").getD Value.noneV)
      let head ← renderHead reg [("title", title)]
      let header ← renderHeader reg
      let footer := renderFooter
      let cres ← renderList pretty ptext reg cs
      let html := pretty (baseHtml head header cres.1 footer)
      let hp ← match alget attr "root_path" with
        | some (Value.path rp) => pure (rp.join path)
        | _ => Except.error BuildErr.typeError
      pure (html, cres.2 ++ [(hp.pstr, html)])
    | "HeadNode" => do
      let s ← renderHead reg attr
      pure (s, [])
    | "HeaderNode" => do
      let s ← renderHeader reg
      pure (s, [])
    | "FooterNode" => pure (renderFooter, [])
    | "PageNode" => do
      let cres ← renderList pretty ptext reg cs
      let s ← renderPage attr cres.1
      pure (s, cres.2)
    | "PostNode" => do
      let cres ← renderList pretty ptext reg cs
      let s ← renderPost attr cres.1
      pure (s, cres.2)
    | "H1Node" => pure (renderHn "1" attr, [])
    | "H2Node" => pure (renderHn "2" attr, [])
    | "H3Node" => pure (renderHn "3" attr, [])
    | "H4Node" => pure (renderHn "4" attr, [])
    | "H5Node" => pure (renderHn "5" attr, [])
    | "H6Node" => pure (renderHn "6" attr, [])
    | "PNode" =>
      match (alget attr "text").getD Value.noneV with
      | Value.str t => pure ("<p class=\"mb-3\">" ++ ptext t ++ "</p>", [])
      | _ => Except.error BuildErr.typeError
    | "DividerNode" => pure ("<hr class=\"my-4\">", [])
    | "ImgNode" => pure (renderImg attr, [])
    | "FigureNode" => pure (renderFigure attr, [])
    | "VideoNode" => pure (renderVideo attr, [])
    | "TimestampNode" => pure (renderTimestamp attr, [])
    | "PostListNode" => do
      let s ← renderPostList attr
      pure (s, [])
    | "TimelineNode" => do
      let cres ← renderList pretty ptext reg cs
      pure (renderTimelineWrap cres.1, cres.2)
    | "TimelineItemNode" => do
      let cres ← renderList pretty ptext reg cs
      pure (renderTimelineItem attr cres.1, cres.2)
    | "TableNode" => do
      let s ← renderTable attr
      pure (s, [])
    | _ => renderList pretty ptext reg cs

/-- `"".join([child.render(site) for child in self._children])` (build.py
line 167): concatenates the child fragments in order, accumulating their
writes. -/
def renderList (pretty ptext : String → String) (reg : Registry) :
    List Node → Except BuildErr (String × List (String × String))
  | [] => pure ("", [])
  | n :: rest => do
    let r1 ← renderN pretty ptext reg n
    let r2 ← renderList pretty ptext reg rest
    pure (r1.1 ++ r2.1, r1.2 ++ r2.2)
end

/-- The output directory as the build observes it: path to contents. -/
def FS : Type := String → Option String

/-- Apply a render's writes in order (a later write to the same path wins,
as with sequential `open("w")` calls). -/
def applyWrites (fs : FS) (ws : List (String × String)) : FS :=
  ws.foldl (fun f w => fun k => if k = w.1 then some w.2 else f k) fs

/-- The last write to `k` among `ws`, if any. -/
def lastWrite (ws : List (String × String)) (k : String) : Option String :=
  ws.foldl (fun acc w => if w.1 = k then some w.2 else acc) Option.none

/-- Rendering a node against an output directory state: the fragment returned
together with the directory state after the render's file writes. -/
def renderFS (pretty ptext : String → String) (reg : Registry) (n : Node)
    (fs : FS) : Except BuildErr (String × FS) :=
  (renderN pretty ptext reg n).map (fun sw => (sw.1, applyWrites fs sw.2))

/-- The document text a render produces, independent of where it is stored:
the returned fragment together with the written file contents in write order
(the write paths are dropped). -/
def renderDoc (r : Except BuildErr (String × List (String × String))) :
    Except BuildErr (String × List String) :=
  r.map (fun sw => (sw.1, sw.2.map (fun w => w.2)))

theorem alget_valueSize {d : Dict} {k : String} {v : Value}
    (h : alget d k = some v) : valueSize v < dictSize d := by
  induction d with
  | nil => simp [alget] at h
  | cons kv rest ih =>
    obtain ⟨k', v'⟩ := kv
    unfold alget at h
    by_cases hk : k' = k
    · simp [hk] at h
      subst h
      simp [dictSize]
      omega
    · simp [hk] at h
      have := ih h
      simp [dictSize]
      omega

theorem one_le_dictSize (d : Dict) : 1 ≤ dictSize d := by
  cases d <;> simp [dictSize] <;> omega

theorem one_le_valueListSize (l : List Value) : 1 ≤ valueListSize l := by
  cases l <;> simp [valueListSize] <;> omega

/-- Helper: reduce a `createF` application at positive fuel with a known
`"type"` lookup. -/
theorem createF_succ_some_str (fuel : Nat) (path : PPath) (data : Dict)
    (tagStr : String) (ht : alget data "type" = some (Value.str tagStr)) :
    createF (fuel + 1) path data =
      match alget REGISTERED_NODE_TYPES tagStr with
      | Option.none => Except.error BuildErr.keyError
      | some cls => constructF fuel cls path data := by
  simp only [createF, ht]

/-- Fuel irrelevance for `createF`: any budget strictly above `dictSize data`
computes the same result, so `Node.create`'s budget choice is inessential and
the fuel-exhaustion branches are unreachable from `Node.create`. -/
theorem createF_fuel_irrelevant :
    ∀ (n : Nat),
      (∀ (f g : Nat) (path : PPath) (data : Dict),
        dictSize data < f → dictSize data < g → f ≤ n →
        createF f path data = createF g path data) ∧
      (∀ (f g : Nat) (cls : String) (path : PPath) (data : Dict),
        dictSize data ≤ f → dictSize data ≤ g → f ≤ n →
        constructF f cls path data = constructF g cls path data) ∧
      (∀ (f g : Nat) (path : PPath) (l : List Value),
        valueListSize l < f → valueListSize l < g → f ≤ n →
        createChildrenF f path l = createChildrenF g path l) := by
  intro n
  induction n using Nat.strong_induction_on with
  | _ n ih =>
    refine ⟨?_, ?_, ?_⟩
    · intro f g path data hf hg hn
      obtain ⟨f', rfl⟩ : ∃ f', f = f' + 1 := ⟨f - 1, by omega⟩
      obtain ⟨g', rfl⟩ : ∃ g', g = g' + 1 := ⟨g - 1, by omega⟩
      cases ht : alget data "type" with
      | none => simp only [createF, ht]
      | some t =>
        cases t with
        | str tagStr =>
          rw [createF_succ_some_str f' path data tagStr ht,
            createF_succ_some_str g' path data tagStr ht]
          cases hr : alget REGISTERED_NODE_TYPES tagStr with
          | none => rfl
          | some cls =>
            exact (ih (n - 1) (by omega)).2.1 f' g' cls path data
              (by omega) (by omega) (by omega)
        | int x => simp only [createF, ht]
        | bool x => simp only [createF, ht]
        | noneV => simp only [createF, ht]
        | path x => simp only [createF, ht]
        | list x => simp only [createF, ht]
        | dict x => simp only [createF, ht]
        | node x => simp only [createF, ht]
    · intro f g cls path data hf hg hn
      have hd1 : 1 ≤ dictSize data := one_le_dictSize data
      obtain ⟨f', rfl⟩ : ∃ f', f = f' + 1 := ⟨f - 1, by omega⟩
      obtain ⟨g', rfl⟩ : ∃ g', g = g' + 1 := ⟨g - 1, by omega⟩
      cases hc : alget data "children" with
      | none => simp only [constructF, hc]
      | some v =>
        cases v with
        | list l =>
          have hs : valueSize (Value.list l) < dictSize data := alget_valueSize hc
          have hl : valueListSize l + 2 ≤ dictSize data := by
            simp [valueSize] at hs
            omega
          simp only [constructF, hc]
          rw [(ih (n - 1) (by omega)).2.2 f' g' path l
            (by omega) (by omega) (by omega)]
        | str x => simp only [constructF, hc]
        | int x => simp only [constructF, hc]
        | bool x => simp only [constructF, hc]
        | noneV => simp only [constructF, hc]
        | path x => simp only [constructF, hc]
        | dict x => simp only [constructF, hc]
        | node x => simp only [constructF, hc]
    · intro f g path l hf hg hn
      obtain ⟨f', rfl⟩ : ∃ f', f = f' + 1 := ⟨f - 1, by omega⟩
      obtain ⟨g', rfl⟩ : ∃ g', g = g' + 1 := ⟨g - 1, by omega⟩
      cases l with
      | nil => simp only [createChildrenF]
      | cons v rest =>
        cases v with
        | dict d =>
          have hsz : valueListSize (Value.dict d :: rest) =
              1 + (1 + dictSize d) + valueListSize rest := by
            simp [valueListSize, valueSize]
          rw [hsz] at hf hg
          have hr1 : 1 ≤ valueListSize rest := one_le_valueListSize rest
          simp only [createChildrenF]
          rw [(ih (n - 1) (by omega)).1 f' g' path d
              (by omega) (by omega) (by omega),
            (ih (n - 1) (by omega)).2.2 f' g' path rest
              (by omega) (by omega) (by omega)]
        | str x => simp only [createChildrenF]
        | int x => simp only [createChildrenF]
        | bool x => simp only [createChildrenF]
        | noneV => simp only [createChildrenF]
        | path x => simp only [createChildrenF]
        | list x => simp only [createChildrenF]
        | node x => simp only [createChildrenF]

theorem alget_alset {β : Type} (d : List (String × β)) (k : String) (v : β) :
    alget (alset d k v) k = some v := by
  induction d with
  | nil => simp [alset, alget]
  | cons kv rest ih =>
    obtain ⟨k', v'⟩ := kv
    unfold alset
    by_cases hk : k' = k
    · simp [hk, alget]
    · simp [hk, alget, ih]

theorem alget_alset_ne {β : Type} (d : List (String × β)) (k k' : String) (v : β)
    (h : k' ≠ k) : alget (alset d k v) k' = alget d k' := by
  induction d with
  | nil =>
    simp only [alset, alget]
    rw [if_neg (fun he => h he.symm)]
  | cons kv rest ih =>
    obtain ⟨k1, v1⟩ := kv
    simp only [alset]
    by_cases hk : k1 = k
    · subst hk
      simp only [if_pos rfl, alget, if_neg (fun he : k1 = k' => h he.symm)]
    · simp only [if_neg hk, alget]
      by_cases h1 : k1 = k'
      · simp [h1]
      · simp [h1, ih]

theorem alget_dremove_self (d : Dict) (k : String) :
    alget (dremove d k) k = Option.none := by
  induction d with
  | nil => rfl
  | cons kv rest ih =>
    obtain ⟨k1, v1⟩ := kv
    simp only [dremove, List.filter_cons] at ih ⊢
    by_cases hk : k1 = k
    · simp only [hk, beq_self_eq_true, Bool.not_true, if_neg]
      simpa using ih
    · have hb : (!(k1 == k)) = true := by simp [hk]
      simp only [hb, if_pos, alget]
      rw [if_neg hk]
      exact ih

theorem alget_dremove_ne (d : Dict) (k k' : String) (h : k' ≠ k) :
    alget (dremove d k) k' = alget d k' := by
  induction d with
  | nil => rfl
  | cons kv rest ih =>
    obtain ⟨k1, v1⟩ := kv
    simp only [dremove, List.filter_cons] at ih ⊢
    by_cases hk : k1 = k
    · have hb : (!(k1 == k)) = false := by simp [hk]
      simp only [hb]
      simp only [alget]
      rw [if_neg (fun he : k1 = k' => h (hk ▸ he ▸ rfl))]
      simpa using ih
    · have hb : (!(k1 == k)) = true := by simp [hk]
      simp only [hb, if_pos, alget]
      by_cases h1 : k1 = k'
      · simp [h1]
      · simp [h1, ih]

/-- C10: `Node.register` derives the type tag deterministically from the class
name by CamelCase-to-snake_case conversion (an underscore before each interior
uppercase letter, everything lowercased), stripping a leading underscore and a
trailing `_node` — so `PostListNode` registers `post_list` and
`TimelineItemNode` registers `timeline_item` — and registering a second class
deriving the same tag silently overwrites the first registration. -/
theorem register_tag_derivation :
    camelToTag "PostListNode" = "post_list" ∧
    camelToTag "TimelineItemNode" = "timeline_item" ∧
    (∀ (reg : List (String × String)) (c1 c2 : String),
      camelToTag c1 = camelToTag c2 →
      alget (registerClass (registerClass reg c1) c2) (camelToTag c1) = some c2) := by
  refine ⟨by decide, by decide, ?_⟩
  intro reg c1 c2 hde
  unfold registerClass
  rw [hde]
  exact alget_alset _ _ _

/-- Witness for C10: the classes `PostList` and `PostListNode` derive the same
tag, and registering both leaves the second one in the registry. -/
theorem register_tag_derivation_witness :
    camelToTag "PostList" = camelToTag "PostListNode" ∧
    alget (registerClass (registerClass [] "PostList") "PostListNode")
      (camelToTag "PostList") = some "PostListNode" :=
  ⟨by decide,
   register_tag_derivation.2.2 [] "PostList" "PostListNode" (by decide)⟩

/-- C9: link resolution leaves full URLs (`http://` or `https://` scheme) and
site-absolute links (leading `/`) unchanged and resolves every other link
against the referencing document's own directory; in particular the bare link
`img/a.png` from the document at `/blog/post1.html` resolves to
`/blog/img/a.png`. -/
theorem process_url_resolution :
    (∀ (p : PPath) (u : String),
      strStartsWith u "http://" = true ∨ strStartsWith u "https://" = true →
      process_url p u = u) ∧
    (∀ (p : PPath) (u : String), strStartsWith u "/" = true →
      process_url p u = u) ∧
    (∀ (ps : List String) (u : String),
      strStartsWith u "http://" = false → strStartsWith u "https://" = false →
      strStartsWith u "/" = false →
      process_url ⟨true, ps⟩ u =
        "/" ++ String.intercalate "/" (ps.dropLast ++ relParts u)) ∧
    process_url ⟨true, ["blog", "post1.html"]⟩ "img/a.png" = "/blog/img/a.png" := by
  refine ⟨?_, ?_, ?_, by decide⟩
  · intro p u hu
    unfold process_url
    rcases hu with h | h <;> simp [h]
  · intro p u hu
    unfold process_url
    by_cases h : strStartsWith u "http://" || strStartsWith u "https://"
    · simp [h]
    · simp [h, hu]
  · intro ps u h1 h2 h3
    simp [process_url, h1, h2, h3, PPath.parent, PPath.joinStr, PPath.pstr]

/-- Witness for C9: the bare-link case evaluated at the concrete spec example
through the theorem. -/
theorem process_url_resolution_witness :
    (strStartsWith "img/a.png" "http://" = false) ∧
    (strStartsWith "img/a.png" "https://" = false) ∧
    (strStartsWith "img/a.png" "/" = false) ∧
    process_url ⟨true, ["blog", "post1.html"]⟩ "img/a.png" =
      "/" ++ String.intercalate "/"
        ((["blog", "post1.html"].dropLast) ++ relParts "img/a.png") :=
  ⟨by decide, by decide, by decide,
   process_url_resolution.2.2.1 ["blog", "post1.html"] "img/a.png"
     (by decide) (by decide) (by decide)⟩

/-- C4: the factory `Node.create` fails when the descriptor has no `type` field
(Python `ValueError`) or its `type` is not a registered tag (uncaught
`KeyError`) — together the spec's unknown-type error — and otherwise invokes
the registered class's constructor on `(path, descriptor)`; these are the only
outcomes. -/
theorem create_dispatch (path : PPath) (data : Dict) :
    (alget data "type" = Option.none →
      Node.create path data = Except.error BuildErr.valueError) ∧
    (∀ s, alget data "type" = some (Value.str s) →
      alget REGISTERED_NODE_TYPES s = Option.none →
      Node.create path data = Except.error BuildErr.keyError) ∧
    (∀ s cls, alget data "type" = some (Value.str s) →
      alget REGISTERED_NODE_TYPES s = some cls →
      Node.create path data = Node.construct cls path data) ∧
    (Node.create path data = Except.error BuildErr.valueError ∨
     Node.create path data = Except.error BuildErr.keyError ∨
     ∃ s cls, alget data "type" = some (Value.str s) ∧
       alget REGISTERED_NODE_TYPES s = some cls ∧
       Node.create path data = Node.construct cls path data) := by
  refine ⟨?_, ?_, ?_, ?_⟩
  · intro h
    simp only [Node.create, createF, h]
  · intro s h hr
    simp only [Node.create, createF, h, hr]
  · intro s cls h hr
    simp only [Node.create, Node.construct, createF, h, hr]
  · rcases h : alget data "type" with _ | t
    · exact Or.inl (by simp only [Node.create, createF, h])
    · cases t with
      | str s =>
        rcases hr : alget REGISTERED_NODE_TYPES s with _ | cls
        · exact Or.inr (Or.inl (by simp only [Node.create, createF, h, hr]))
        · exact Or.inr (Or.inr ⟨s, cls, rfl, hr,
            by simp only [Node.create, Node.construct, createF, h, hr]⟩)
      | int x => exact Or.inr (Or.inl (by simp only [Node.create, createF, h]))
      | bool x => exact Or.inr (Or.inl (by simp only [Node.create, createF, h]))
      | noneV => exact Or.inr (Or.inl (by simp only [Node.create, createF, h]))
      | path x => exact Or.inr (Or.inl (by simp only [Node.create, createF, h]))
      | list x => exact Or.inr (Or.inl (by simp only [Node.create, createF, h]))
      | dict x => exact Or.inr (Or.inl (by simp only [Node.create, createF, h]))
      | node x => exact Or.inr (Or.inl (by simp only [Node.create, createF, h]))

/-- Witness for C4: a `divider` descriptor dispatches to `DividerNode`, and a
typeless descriptor fails, both through the theorem. -/
theorem create_dispatch_witness :
    (alget [("type", Value.str "divider")] "type" = some (Value.str "divider")) ∧
    (alget REGISTERED_NODE_TYPES "divider" = some "DividerNode") ∧
    Node.create ⟨false, ["a.html"]⟩ [("type", Value.str "divider")] =
      Node.construct "DividerNode" ⟨false, ["a.html"]⟩ [("type", Value.str "divider")] ∧
    (alget ([] : Dict) "type" = Option.none) ∧
    Node.create ⟨false, ["a.html"]⟩ [] = Except.error BuildErr.valueError :=
  ⟨rfl, by decide,
   (create_dispatch ⟨false, ["a.html"]⟩ [("type", Value.str "divider")]).2.2.1
     "divider" "DividerNode" rfl (by decide),
   rfl,
   (create_dispatch ⟨false, ["a.html"]⟩ []).1 rfl⟩

/-- C8 counterexample: the descriptor is not read-only input. `Node.__init__`
executes `data.pop("children", [])`, so after constructing a node from the
descriptor `{type: "base", root_path: ., children: []}` the caller's dictionary
no longer contains its `children` entry, contrary to the claim. -/
theorem descriptor_mutated_cex :
    alget (descriptorAfterInit
      [("type", Value.str "base"), ("root_path", Value.path ⟨false, []⟩),
       ("children", Value.list [])]) "children" = Option.none ∧
    descriptorAfterInit
      [("type", Value.str "base"), ("root_path", Value.path ⟨false, []⟩),
       ("children", Value.list [])] ≠
      [("type", Value.str "base"), ("root_path", Value.path ⟨false, []⟩),
       ("children", Value.list [])] := by
  constructor
  · rfl
  · intro h
    have h2 := congrArg (fun d => alget d "children") h
    simp only [descriptorAfterInit] at h2
    rw [alget_dremove_self] at h2
    have h3 : alget
      [("type", Value.str "base"), ("root_path", Value.path ⟨false, []⟩),
       ("children", Value.list [])] "children" = some (Value.list []) := rfl
    rw [h3] at h2
    exact Option.noConfusion h2

/-- C8 amended: tree construction mutates the descriptor in place exactly by
removing its `children` binding (`data.pop("children", [])`); every other
binding is preserved, and the popped dictionary lives on as the node's
attribute record. -/
theorem init_pops_children (data : Dict) :
    alget (descriptorAfterInit data) "children" = Option.none ∧
    (∀ k, k ≠ "children" → alget (descriptorAfterInit data) k = alget data k) := by
  refine ⟨alget_dremove_self data "children", ?_⟩
  intro k hk
  exact alget_dremove_ne data "children" k hk

/-- Witness for C8: the preserved `type` binding of a concrete descriptor. -/
theorem init_pops_children_witness :
    alget (descriptorAfterInit
      [("type", Value.str "base"), ("children", Value.list [])]) "children"
      = Option.none ∧
    alget (descriptorAfterInit
      [("type", Value.str "base"), ("children", Value.list [])]) "type" =
      alget [("type", Value.str "base"), ("children", Value.list [])] "type" :=
  ⟨(init_pops_children _).1,
   (init_pops_children _).2 "type" (by decide)⟩

/-- C5 counterexample: the page-wrapper descriptor does carry content fields of
its own. For the parsed content `{type: "post", title: "x"}` the wrapper built
at build.py lines 38–43 is `{**deepcopy(content), type: "base", root_path: .,
children: [content]}`, whose `title` binding is `"x"` — not a wrapper with no
content fields besides the child list. -/
theorem wrap_spread_cex :
    ¬ (∀ k, k ≠ "type" → k ≠ "root_path" → k ≠ "children" →
        alget (wrapContent ⟨false, []⟩
          [("type", Value.str "post"), ("title", Value.str "x")]) k =
          Option.none) := by
  intro h
  have h2 := h "title" (by decide) (by decide) (by decide)
  have h3 : alget (wrapContent ⟨false, []⟩
      [("type", Value.str "post"), ("title", Value.str "x")]) "title" =
      some (Value.str "x") := rfl
  rw [h3] at h2
  exact Option.noConfusion h2

/-- C5 amended: a parsed content whose `type` is not the sentinel `"data"` is
wrapped into a descriptor whose `type` is `"base"`, whose `children` is exactly
the one-element sequence holding the original content, whose `root_path` is the
site root — and which additionally carries (deep copies of) every other
top-level field of the original content, since the wrapper is built by
spreading `**copy.deepcopy(content)`; a `"data"` content is built unwrapped. -/
theorem wrap_carries_spread_fields (rootPath : PPath) (content : Dict)
    (h : ∀ l, alget content "type" = some l → l ≠ Value.str "data") :
    alget (wrapContent rootPath content) "type" = some (Value.str "base") ∧
    alget (wrapContent rootPath content) "children" =
      some (Value.list [Value.dict content]) ∧
    alget (wrapContent rootPath content) "root_path" =
      some (Value.path rootPath) ∧
    (∀ k, k ≠ "type" → k ≠ "root_path" → k ≠ "children" →
      alget (wrapContent rootPath content) k = alget content k) ∧
    (∀ c2, alget c2 "type" = some (Value.str "data") → wrapContent rootPath c2 = c2) := by
  have hw : wrapContent rootPath content =
      alset (alset (alset content "type" (Value.str "base"))
        "root_path" (Value.path rootPath)) "children"
        (Value.list [Value.dict content]) := by
    unfold wrapContent
    split
    · rename_i heq
      exact absurd rfl (h _ heq)
    · rfl
  refine ⟨?_, ?_, ?_, ?_, ?_⟩
  · rw [hw, alget_alset_ne _ _ _ _ (by decide), alget_alset_ne _ _ _ _ (by decide)]
    exact alget_alset _ _ _
  · rw [hw]
    exact alget_alset _ _ _
  · rw [hw, alget_alset_ne _ _ _ _ (by decide)]
    exact alget_alset _ _ _
  · intro k h1 h2 h3
    rw [hw, alget_alset_ne _ _ _ _ h3, alget_alset_ne _ _ _ _ h2,
      alget_alset_ne _ _ _ _ h1]
  · intro c2 h2
    simp only [wrapContent, h2]

/-- Witness for C5: the wrapper of `{type: "post", title: "x"}` evaluated
through the amended theorem. -/
theorem wrap_carries_spread_fields_witness :
    alget (wrapContent ⟨false, []⟩
      [("type", Value.str "post"), ("title", Value.str "x")]) "title" =
      alget [("type", Value.str "post"), ("title", Value.str "x")] "title" ∧
    alget (wrapContent ⟨false, []⟩
      [("type", Value.str "post"), ("title", Value.str "x")]) "type" =
      some (Value.str "base") := by
  have h : ∀ l, alget [("type", Value.str "post"), ("title", Value.str "x")]
      "type" = some l → l ≠ Value.str "data" := by
    intro l hl
    have : l = Value.str "post" := by
      rw [show alget [("type", Value.str "post"), ("title", Value.str "x")]
        "type" = some (Value.str "post") from rfl] at hl
      exact (Option.some.injEq _ _ ▸ hl).symm
    rw [this]
    intro hc
    exact absurd (Value.str.injEq "post" "data" ▸ hc) (by decide)
  exact ⟨(wrap_carries_spread_fields ⟨false, []⟩ _ h).2.2.2.1 "title"
      (by decide) (by decide) (by decide),
    (wrap_carries_spread_fields ⟨false, []⟩ _ h).1⟩

theorem except_bind_ok {ε α β : Type} (a : α) (f : α → Except ε β) :
    (Except.ok a : Except ε α) >>= f = f a := rfl

theorem foldlM_of_ok {α β : Type} (f : β → α → Except BuildErr β) (g : β → α → β)
    (hf : ∀ b a, f b a = Except.ok (g b a)) :
    ∀ (l : List α) (b : β), l.foldlM f b = Except.ok (l.foldl g b) := by
  intro l
  induction l with
  | nil => intro b; rfl
  | cons x xs ih =>
    intro b
    rw [List.foldlM_cons, hf, except_bind_ok, ih, List.foldl_cons]

/-- Factory evaluation of the synthetic page descriptor at any sufficiently
large fuel: the recursion is two descriptor levels deep, so five extra steps
always suffice. -/
theorem createF_pageData (f : Nat) (p rootPath : PPath) (chunk : List Node)
    (i : Nat) (links : List String) :
    createF (f + 5) p (pageData rootPath chunk i links) =
      Except.ok (mkPageNode p rootPath chunk i links) := by
  have hb : alget REGISTERED_NODE_TYPES "base" = some "BaseNode" := by decide
  have hp : alget REGISTERED_NODE_TYPES "post_list" = some "PostListNode" := by
    decide
  show createF (f + 4 + 1) p (pageData rootPath chunk i links) = _
  rw [show f + 4 = (f + 3) + 1 from rfl]
  simp only [createF, constructF, createChildrenF, Node.finishInit, pageData,
    mkPageNode, alget, dremove, hb, hp, except_bind_ok]
  rfl

/-- Node.create on the synthetic page descriptor always succeeds and yields the
explicit page node. -/
theorem create_pageData (p rootPath : PPath) (chunk : List Node) (i : Nat)
    (links : List String) :
    Node.create p (pageData rootPath chunk i links) =
      Except.ok (mkPageNode p rootPath chunk i links) := by
  rw [Node.create,
    (createF_fuel_irrelevant (dictSize (pageData rootPath chunk i links) + 5)).1
      (dictSize (pageData rootPath chunk i links) + 1)
      (dictSize (pageData rootPath chunk i links) + 5) p _
      (by omega) (by omega) (by omega)]
  exact createF_pageData _ p rootPath chunk i links

/-- The loop body never fails: it equals its pure counterpart `pageStep`. -/
theorem indexLoopBody_ok (rootPath : PPath) (pageRoot : String)
    (links : List String) (isHomeSpec : Bool) (acc : Registry)
    (ichunk : Nat × List Node) :
    indexLoopBody rootPath pageRoot links isHomeSpec acc ichunk =
      Except.ok (pageStep rootPath pageRoot links isHomeSpec acc ichunk) := by
  obtain ⟨i, chunk⟩ := ichunk
  by_cases h : isHomeSpec && i = 0 <;>
    simp [indexLoopBody, pageStep, h, create_pageData, except_bind_ok]

theorem insertEntries_append (r : Registry) (xs ys : List (String × Node)) :
    insertEntries r (xs ++ ys) = insertEntries (insertEntries r xs) ys := by
  simp [insertEntries, List.foldl_append]

/-- The page loop from index 1 on never touches the home alias: it just inserts
the page entries. -/
theorem fold_pageStep_from (rootPath : PPath) (pageRoot : String)
    (links : List String) (isHomeSpec : Bool) :
    ∀ (chunks : List (List Node)) (k : Nat) (acc : Registry), 1 ≤ k →
      (chunks.enumFrom k).foldl (pageStep rootPath pageRoot links isHomeSpec)
          acc =
        insertEntries acc
          ((chunks.enumFrom k).map (pageEntry rootPath pageRoot links)) := by
  intro chunks
  induction chunks with
  | nil => intro k acc _; rfl
  | cons c rest ih =>
    intro k acc hk
    simp only [List.enumFrom, List.foldl_cons, List.map_cons]
    rw [show pageStep rootPath pageRoot links isHomeSpec acc (k, c) =
        insertEntries acc [pageEntry rootPath pageRoot links (k, c)] by
      simp [pageStep, pageEntry, insertEntries, Nat.pos_iff_ne_zero.mp hk],
      ih (k + 1) _ (by omega)]
    rw [← insertEntries_append]
    rfl

/-- The whole page loop inserts exactly the home entry (when applicable)
followed by the page entries, in order. -/
theorem fold_pageStep_entries (rootPath : PPath) (pageRoot : String)
    (links : List String) (isHomeSpec : Bool) (chunks : List (List Node))
    (acc : Registry) :
    chunks.enum.foldl (pageStep rootPath pageRoot links isHomeSpec) acc =
      insertEntries acc
        (homeEntries rootPath isHomeSpec links chunks ++
          pageEntries rootPath pageRoot links chunks) := by
  cases chunks with
  | nil => rfl
  | cons c0 rest =>
    simp only [List.enum, List.enumFrom, List.foldl_cons, pageEntries,
      List.map_cons, homeEntries]
    rw [fold_pageStep_from rootPath pageRoot links isHomeSpec rest 1 _
      (by omega)]
    by_cases h : isHomeSpec
    · simp only [h, if_pos]
      rw [show pageStep rootPath pageRoot links true acc (0, c0) =
          insertEntries acc
            [(let n := mkPageNode (mkPath "./index.html") rootPath c0 0 links
              (n.pathStr, n)),
             pageEntry rootPath pageRoot links (0, c0)] by
        simp [pageStep, pageEntry, insertEntries]]
      rw [← insertEntries_append]
      simp
    · simp only [h, if_neg, Bool.false_and]
      rw [show pageStep rootPath pageRoot links false acc (0, c0) =
          insertEntries acc [pageEntry rootPath pageRoot links (0, c0)] by
        simp [pageStep, pageEntry, insertEntries]]
      rw [← insertEntries_append]
      simp

theorem ceilDiv_zero_left (b : Nat) (hb : b ≠ 0) : ceilDiv 0 b = 0 := by
  unfold ceilDiv
  exact Nat.div_eq_of_lt (by omega)

theorem ceilDiv_sub_add (len n : Nat) (hn : n ≠ 0) (hl : 1 ≤ len) :
    ceilDiv len n = ceilDiv (len - n) n + 1 := by
  unfold ceilDiv
  by_cases h : len ≤ n
  · have h1 : len - n = 0 := by omega
    rw [h1]
    rw [show (0 + n - 1) / n = 0 from Nat.div_eq_of_lt (by omega)]
    rw [show (len + n - 1) / n = 1 from
      Nat.div_eq_of_lt_le (by omega) (by omega)]
  · have h3 : len + n - 1 = (len - n + n - 1) + n := by omega
    rw [h3, Nat.add_div_right _ (by omega : 0 < n)]

theorem batchedF_length {α : Type} (n : Nat) (hn : n ≠ 0) :
    ∀ (fuel : Nat) (l : List α), l.length ≤ fuel →
      (batchedF n fuel l).length = ceilDiv l.length n := by
  intro fuel
  induction fuel with
  | zero =>
    intro l hl
    have h0 : l = [] := List.eq_nil_of_length_eq_zero (by omega)
    subst h0
    simp [batchedF, ceilDiv_zero_left n hn]
  | succ f ih =>
    intro l hl
    cases l with
    | nil => simp [batchedF, ceilDiv_zero_left n hn]
    | cons x rest =>
      simp only [List.length_cons] at hl
      simp only [batchedF, List.length_cons]
      rw [ih _ (by simp; omega)]
      have hdl : ((x :: rest).drop n).length = rest.length + 1 - n := by simp
      rw [hdl, ceilDiv_sub_add (rest.length + 1) n hn (by omega)]

theorem batched_length {α : Type} (n : Nat) (hn : n ≠ 0) (l : List α) :
    (batched n l).length = ceilDiv l.length n := by
  rw [batched, if_neg hn]
  exact batchedF_length n hn l.length l (le_refl _)

theorem batchedF_getElem {α : Type} (n : Nat) (hn : n ≠ 0) :
    ∀ (fuel : Nat) (l : List α), l.length ≤ fuel → ∀ (i : Nat),
      (batchedF n fuel l)[i]? =
        if i * n < l.length then some ((l.drop (i * n)).take n)
        else Option.none := by
  intro fuel
  induction fuel with
  | zero =>
    intro l hl i
    have h0 : l = [] := List.eq_nil_of_length_eq_zero (by omega)
    subst h0
    simp [batchedF]
  | succ f ih =>
    intro l hl i
    cases l with
    | nil => simp [batchedF]
    | cons x rest =>
      simp only [List.length_cons] at hl
      cases i with
      | zero => simp [batchedF]
      | succ j =>
        have hmul : (j + 1) * n = j * n + n := by ring
        simp only [batchedF, List.getElem?_cons_succ]
        rw [ih _ (by simp; omega) j]
        have hdl : ((x :: rest).drop n).length = rest.length + 1 - n := by simp
        rw [hdl, List.drop_drop]
        by_cases hc : (j + 1) * n < rest.length + 1
        · rw [if_pos (by omega), if_pos (by simp; omega)]
          rw [show n + j * n = (j + 1) * n by ring]
        · rw [if_neg (by omega), if_neg (by simp; omega)]

theorem batched_getElem {α : Type} (n : Nat) (hn : n ≠ 0) (l : List α)
    (i : Nat) :
    (batched n l)[i]? =
      if i * n < l.length then some ((l.drop (i * n)).take n)
      else Option.none := by
  rw [batched, if_neg hn]
  exact batchedF_getElem n hn l.length l (le_refl _) i

theorem mul_lt_of_lt_ceilDiv {i len p : Nat} (hp : p ≠ 0)
    (h : i < ceilDiv len p) : i * p < len := by
  unfold ceilDiv at h
  have h1 : i + 1 ≤ (len + p - 1) / p := h
  have h2 : (i + 1) * p ≤ len + p - 1 :=
    (Nat.le_div_iff_mul_le (by omega : 0 < p)).mp h1
  have h3 : (i + 1) * p = i * p + p := by ring
  omega

theorem unwrapNodes_map (chunk : List Node) :
    unwrapNodes (chunk.map Value.node) = some chunk := by
  induction chunk with
  | nil => rfl
  | cons n rest ih => simp [unwrapNodes, ih]

theorem mkPageNode_pageMembers (p rootPath : PPath) (chunk : List Node)
    (i : Nat) (links : List String) :
    (mkPageNode p rootPath chunk i links).pageMembers = some chunk := by
  simp [Node.pageMembers, mkPageNode, Node.children, Node.attr, alget,
    unwrapNodes_map]

/-- Success form of `processIndex`: with a usable path and page size and dated
members, it inserts exactly the home entry (for a home-marked specification
with at least one page) followed by the page entries, in loop order, into the
incoming registry. -/
theorem processIndex_ok (rootPath : PPath) (nodes : Registry) (spec : Dict)
    (pageRoot : String) (P : Nat)
    (hpath : alget spec "path" = some (Value.str pageRoot))
    (hsize : alget spec "page_size" = some (Value.int (Int.ofNat P)) ∨
      (alget spec "page_size" = Option.none ∧ P = 20))
    (hP : P ≠ 0)
    (hdates : ∀ n ∈ selectMembers nodes pageRoot, n.dateKey.isSome = true) :
    processIndex rootPath nodes spec = Except.ok
      (insertEntries nodes
        (homeEntries rootPath
            (truthy ((alget spec "home").getD (Value.bool false)))
            (linksFor pageRoot
              (sortByDateDesc (selectMembers nodes pageRoot)).length P)
            (batched P (sortByDateDesc (selectMembers nodes pageRoot))) ++
          pageEntries rootPath pageRoot
            (linksFor pageRoot
              (sortByDateDesc (selectMembers nodes pageRoot)).length P)
            (batched P (sortByDateDesc (selectMembers nodes pageRoot))))) := by
  have hany : (selectMembers nodes pageRoot).any
      (fun n => n.dateKey.isNone) = false := by
    cases hA : (selectMembers nodes pageRoot).any (fun n => n.dateKey.isNone) with
    | false => rfl
    | true =>
      obtain ⟨n, hn, hn2⟩ := List.any_eq_true.mp hA
      have h1 := hdates n hn
      rw [Option.isNone_iff_eq_none] at hn2
      rw [hn2] at h1
      simp at h1
  have hfold : ∀ links isHome,
      (batched P (sortByDateDesc (selectMembers nodes pageRoot))).enum.foldlM
        (indexLoopBody rootPath pageRoot links isHome) nodes =
      Except.ok (insertEntries nodes
        (homeEntries rootPath isHome links
            (batched P (sortByDateDesc (selectMembers nodes pageRoot))) ++
          pageEntries rootPath pageRoot links
            (batched P (sortByDateDesc (selectMembers nodes pageRoot))))) := by
    intro links isHome
    rw [foldlM_of_ok (indexLoopBody rootPath pageRoot links isHome)
      (pageStep rootPath pageRoot links isHome)
      (indexLoopBody_ok rootPath pageRoot links isHome)]
    rw [fold_pageStep_entries]
  rcases hsize with hsz | ⟨hsz, rfl⟩
  · simp only [processIndex, hpath, hsz, pure_bind, except_bind_ok, hany,
      Bool.and_false, Bool.false_eq_true, if_false, if_neg hP]
    exact hfold _ _
  · simp only [processIndex, hpath, hsz, pure_bind, except_bind_ok, hany,
      Bool.and_false, Bool.false_eq_true, if_false]
    rw [if_neg hP]
    exact hfold _ _

/-- C1: for an index specification with page root `pageRoot` and page size
`P ≥ 1` over members that all carry a (string) date, synthesis succeeds and
inserts exactly `ceil(N/P)` page entries (`N` the member count; zero entries
when there are no members) plus the optional home alias; the `i`-th page entry
is keyed at `/{pageRoot}indexes/index_i.html` and its node carries exactly the
member subsequence `[i*P, min((i+1)*P, N))` of the members sorted by date
descending (a permutation of the members that is pairwise date-descending),
preserving that order within the page. -/
theorem index_pagination (rootPath : PPath) (nodes : Registry) (spec : Dict)
    (pageRoot : String) (P : Nat)
    (hpath : alget spec "path" = some (Value.str pageRoot))
    (hsize : alget spec "page_size" = some (Value.int (Int.ofNat P)) ∨
      (alget spec "page_size" = Option.none ∧ P = 20))
    (hP : P ≠ 0)
    (hdates : ∀ n ∈ selectMembers nodes pageRoot, n.dateKey.isSome = true) :
    processIndex rootPath nodes spec = Except.ok
      (insertEntries nodes
        (homeEntries rootPath
            (truthy ((alget spec "home").getD (Value.bool false)))
            (linksFor pageRoot
              (sortByDateDesc (selectMembers nodes pageRoot)).length P)
            (batched P (sortByDateDesc (selectMembers nodes pageRoot))) ++
          pageEntries rootPath pageRoot
            (linksFor pageRoot
              (sortByDateDesc (selectMembers nodes pageRoot)).length P)
            (batched P (sortByDateDesc (selectMembers nodes pageRoot))))) ∧
    (pageEntries rootPath pageRoot
        (linksFor pageRoot
          (sortByDateDesc (selectMembers nodes pageRoot)).length P)
        (batched P (sortByDateDesc (selectMembers nodes pageRoot)))).length =
      ceilDiv (selectMembers nodes pageRoot).length P ∧
    (sortByDateDesc (selectMembers nodes pageRoot)).Perm
      (selectMembers nodes pageRoot) ∧
    List.Sorted dateDescRel (sortByDateDesc (selectMembers nodes pageRoot)) ∧
    (∀ i, i < ceilDiv (selectMembers nodes pageRoot).length P →
      (pageEntries rootPath pageRoot
          (linksFor pageRoot
            (sortByDateDesc (selectMembers nodes pageRoot)).length P)
          (batched P (sortByDateDesc (selectMembers nodes pageRoot))))[i]? =
        some (pageEntry rootPath pageRoot
          (linksFor pageRoot
            (sortByDateDesc (selectMembers nodes pageRoot)).length P)
          (i, ((sortByDateDesc (selectMembers nodes pageRoot)).drop
                (i * P)).take P))) ∧
    (∀ (p : PPath) (chunk : List Node) (j : Nat) (links : List String),
      (mkPageNode p rootPath chunk j links).pageMembers = some chunk) ∧
    (∀ (j : Nat) (chunk : List Node) (links : List String),
      (pageEntry rootPath pageRoot links (j, chunk)).1 =
        "/" ++ (indexPagePath pageRoot j).pstr) := by
  have hlen : (sortByDateDesc (selectMembers nodes pageRoot)).length =
      (selectMembers nodes pageRoot).length := by
    rw [sortByDateDesc, List.length_insertionSort]
  refine ⟨processIndex_ok rootPath nodes spec pageRoot P hpath hsize hP hdates,
    ?_, ?_, ?_, ?_, ?_, ?_⟩
  · simp only [pageEntries, List.length_map, List.enum_length]
    rw [batched_length P hP, hlen]
  · exact List.perm_insertionSort dateDescRel _
  · exact List.sorted_insertionSort dateDescRel _
  · intro i hi
    have hi' : i < ceilDiv
        (sortByDateDesc (selectMembers nodes pageRoot)).length P := by
      rw [hlen]
      exact hi
    simp only [pageEntries, List.getElem?_map]
    rw [← List.get?_eq_getElem?, List.get?_enum, List.get?_eq_getElem?]
    rw [batched_getElem P hP _ i,
      if_pos (by rw [← hlen] at hi; exact mul_lt_of_lt_ceilDiv hP hi)]
    rfl
  · intro p chunk j links
    exact mkPageNode_pageMembers p rootPath chunk j links
  · intro j chunk links
    simp [pageEntry, Node.pathStr, mkPageNode, Node.ppath]

/-- Registry of three dated posts used to witness C1, following the spec's
concrete scenario. -/
def c1Registry : Registry :=
  [("/blog/post1.html", Node.mk "BaseNode" ⟨false, ["blog", "post1.html"]⟩
      [("type", Value.str "base"), ("date", Value.str "2024-01-01")] []),
   ("/blog/post2.html", Node.mk "BaseNode" ⟨false, ["blog", "post2.html"]⟩
      [("type", Value.str "base"), ("date", Value.str "2024-02-01")] []),
   ("/blog/post3.html", Node.mk "BaseNode" ⟨false, ["blog", "post3.html"]⟩
      [("type", Value.str "base"), ("date", Value.str "2024-03-01")] [])]

/-- The index specification used to witness C1. -/
def c1Spec : Dict :=
  [("path", Value.str "/blog/"), ("page_size", Value.int 2)]

/-- Witness for C1: three members with page size 2 give two pages. -/
theorem index_pagination_witness :
    (alget c1Spec "path" = some (Value.str "/blog/")) ∧
    (alget c1Spec "page_size" = some (Value.int (Int.ofNat 2))) ∧
    (∀ n ∈ selectMembers c1Registry "/blog/", n.dateKey.isSome = true) ∧
    (pageEntries ⟨false, []⟩ "/blog/"
        (linksFor "/blog/"
          (sortByDateDesc (selectMembers c1Registry "/blog/")).length 2)
        (batched 2 (sortByDateDesc (selectMembers c1Registry "/blog/")))).length =
      ceilDiv (selectMembers c1Registry "/blog/").length 2 :=
  ⟨rfl, rfl, by decide,
   (index_pagination ⟨false, []⟩ c1Registry c1Spec "/blog/" 2 rfl (Or.inl rfl)
     (by decide) (by decide)).2.1⟩

/-- Primary post used by the C2 counterexample. -/
def c2Post : Node :=
  Node.mk "BaseNode" ⟨false, ["blog", "post1.html"]⟩
    [("type", Value.str "base"), ("date", Value.str "2024-01-01")] []

/-- Pre-synthesis registry used by the C2 counterexample. -/
def c2Registry : Registry :=
  [("/blog/post1.html", c2Post)]

/-- Index specification (`path: /blog/`, default page size) used twice by the
C2 counterexample. -/
def c2Spec : Dict :=
  [("path", Value.str "/blog/")]

/-- The page node the first specification synthesizes in the C2 scenario. -/
def c2PageNode : Node :=
  mkPageNode (indexPagePath "/blog/" 0) ⟨false, []⟩ [c2Post] 0
    ["/blog/indexes/index_0.html"]

/-- The registry after the first specification in the C2 scenario. -/
def c2R1 : Registry :=
  [("/blog/post1.html", c2Post),
   ("/blog/indexes/index_0.html", c2PageNode)]

/-- C2 counterexample: member selection is NOT taken from a snapshot of the
registry before any synthetic node was inserted. With one primary post under
`/blog/` and the same `/blog/` specification listed twice, the first
specification synthesizes `/blog/indexes/index_0.html`; the second
specification (which `processIndexes` runs against the registry the first one
left behind) then selects that synthetic node as a member: its selection has
two members, not the snapshot's one, and the extra member's path is absent
from the pre-synthesis registry. (In CPython this very run then crashes in the
date sort, because the synthetic member has no date: the model returns the
corresponding `typeError`.) -/
theorem members_snapshot_cex :
    processIndex ⟨false, []⟩ c2Registry c2Spec = Except.ok c2R1 ∧
    processIndexes ⟨false, []⟩ c2Registry [c2Spec, c2Spec] =
      processIndex ⟨false, []⟩ c2R1 c2Spec ∧
    selectMembers c2R1 "/blog/" ≠ selectMembers c2Registry "/blog/" ∧
    (selectMembers c2R1 "/blog/")[1]? = some c2PageNode ∧
    alget c2Registry c2PageNode.pathStr = Option.none ∧
    processIndex ⟨false, []⟩ c2R1 c2Spec = Except.error BuildErr.typeError := by
  refine ⟨rfl, ?_, ?_, rfl, rfl, rfl⟩
  · show (processIndex ⟨false, []⟩ c2Registry c2Spec >>= fun R1 =>
      processIndex ⟨false, []⟩ R1 c2Spec >>= fun R2 => pure R2) = _
    rw [show processIndex ⟨false, []⟩ c2Registry c2Spec = Except.ok c2R1
      from rfl, except_bind_ok]
    cases h : processIndex ⟨false, []⟩ c2R1 c2Spec with
    | ok r => rfl
    | error e => rfl
  · intro h
    have h2 : (selectMembers c2R1 "/blog/").length = 2 := rfl
    have h3 : (selectMembers c2Registry "/blog/").length = 1 := rfl
    rw [h, h3] at h2
    exact absurd h2 (by omega)

/-- C2 amended: the members selected for a specification are exactly the
entries, in insertion order, of the registry as it stands when that
specification is processed — the pre-synthesis snapshot only for the first
specification. Every member is an entry of that live registry whose key starts
with the prefix, and `processIndexes` feeds each later specification the
registry produced by the previous one, so a later specification whose prefix
matches an earlier specification's synthesized output paths selects those
synthetic nodes as members. -/
theorem members_selection_live (rootPath : PPath) :
    (∀ (R : Registry) (pageRoot : String),
      selectMembers R pageRoot =
        (R.filter (fun kv => strStartsWith kv.1 pageRoot)).map
          (fun kv => kv.2)) ∧
    (∀ (R : Registry) (pageRoot : String) (n : Node),
      n ∈ selectMembers R pageRoot →
        ∃ k, (k, n) ∈ R ∧ strStartsWith k pageRoot = true) ∧
    (∀ (R R1 : Registry) (s : Dict) (rest : List Dict),
      processIndex rootPath R s = Except.ok R1 →
      processIndexes rootPath R (s :: rest) =
        processIndexes rootPath R1 rest) := by
  refine ⟨fun R pageRoot => rfl, ?_, ?_⟩
  · intro R pageRoot n hn
    rw [selectMembers] at hn
    obtain ⟨kv, hkv, hkv2⟩ := List.mem_map.mp hn
    obtain ⟨hmem, hpre⟩ := List.mem_filter.mp hkv
    exact ⟨kv.1, by rw [← hkv2]; simpa using hmem, hpre⟩
  · intro R R1 s rest h
    show (processIndex rootPath R s >>= fun R1 =>
      rest.foldlM (processIndex rootPath) R1) = _
    rw [h, except_bind_ok]
    rfl

/-- Witness for C2's amended theorem: membership and sequencing at the
counterexample scenario. -/
theorem members_selection_live_witness :
    (c2Post ∈ selectMembers c2Registry "/blog/") ∧
    (∃ k, (k, c2Post) ∈ c2Registry ∧ strStartsWith k "/blog/" = true) ∧
    (processIndex ⟨false, []⟩ c2Registry c2Spec = Except.ok c2R1) ∧
    processIndexes ⟨false, []⟩ c2Registry [c2Spec] =
      processIndexes ⟨false, []⟩ c2R1 [] :=
  ⟨List.mem_singleton.mpr rfl,
   (members_selection_live ⟨false, []⟩).2.1 c2Registry "/blog/" c2Post
     (List.mem_singleton.mpr rfl),
   rfl,
   (members_selection_live ⟨false, []⟩).2.2 c2Registry c2R1 c2Spec [] rfl⟩

theorem except_bind_error {ε α β : Type} (e : ε) (f : α → Except ε β) :
    (Except.error e : Except ε α) >>= f = Except.error e := rfl

theorem alget_alset_isSome {β : Type} (d : List (String × β)) (k k' : String)
    (v : β) (h : (alget d k).isSome = true) :
    (alget (alset d k' v) k).isSome = true := by
  by_cases hk : k = k'
  · subst hk
    rw [alget_alset]
    rfl
  · rw [alget_alset_ne d k' k v hk]
    exact h

theorem insertEntries_cons (R : Registry) (e : String × Node)
    (rest : List (String × Node)) :
    insertEntries R (e :: rest) = insertEntries (alset R e.1 e.2) rest := rfl

theorem insertEntries_isSome (es : List (String × Node)) :
    ∀ (R : Registry) (k : String), (alget R k).isSome = true →
      (alget (insertEntries R es) k).isSome = true := by
  induction es with
  | nil => intro R k h; exact h
  | cons e rest ih =>
    intro R k h
    rw [insertEntries_cons]
    exact ih _ k (alget_alset_isSome R k e.1 e.2 h)

theorem insertEntries_not_mem (es : List (String × Node)) :
    ∀ (R : Registry) (k : String), (∀ v, (k, v) ∉ es) →
      alget (insertEntries R es) k = alget R k := by
  induction es with
  | nil => intro R k _; rfl
  | cons e rest ih =>
    intro R k hk
    rw [insertEntries_cons]
    have hne : k ≠ e.1 := by
      intro he
      exact hk e.2 (by rw [he]; exact List.mem_cons_self _ _)
    rw [ih _ k (fun v hv => hk v (List.mem_cons_of_mem _ hv)),
      alget_alset_ne R e.1 k e.2 hne]

theorem foldl_pageStep_isSome (rootPath : PPath) (pageRoot : String)
    (links : List String) (isHome : Bool) :
    ∀ (pairs : List (Nat × List Node)) (acc : Registry) (k : String),
      (alget acc k).isSome = true →
      (alget (pairs.foldl (pageStep rootPath pageRoot links isHome) acc)
        k).isSome = true := by
  intro pairs
  induction pairs with
  | nil => intro acc k h; exact h
  | cons p rest ih =>
    intro acc k h
    rw [List.foldl_cons]
    apply ih
    rw [pageStep]
    by_cases hc : isHome && p.1 = 0
    · simp only [hc, if_pos]
      exact alget_alset_isSome _ k _ _ (alget_alset_isSome _ k _ _ h)
    · simp only [hc, if_neg, Bool.false_eq_true]
      exact alget_alset_isSome _ k _ _ h

/-- A successful `processIndex` never removes a key: every key present in the
incoming registry is still present (with some node) afterwards. -/
theorem processIndex_isSome_mono (rootPath : PPath) (R : Registry) (spec : Dict)
    (R1 : Registry) (h : processIndex rootPath R spec = Except.ok R1) :
    ∀ k, (alget R k).isSome = true → (alget R1 k).isSome = true := by
  intro k hk
  rw [processIndex] at h
  rcases hp : alget spec "path" with _ | t
  · rw [hp] at h
    simp [except_bind_error] at h
  · rw [hp] at h
    cases t with
    | str pageRoot =>
      rcases hq : alget spec "page_size" with _ | t2
      case str.none =>
        rw [hq] at h
        simp only [pure_bind] at h
        by_cases hz : (20 : Nat) = 0
        · omega
        · rw [if_neg hz] at h
          by_cases hg : (decide ((selectMembers R pageRoot).length ≥ 2) &&
              (selectMembers R pageRoot).any (fun n => n.dateKey.isNone)) = true
          · rw [if_pos hg] at h
            simp at h
          · rw [if_neg hg] at h
            rw [foldlM_of_ok _ _ (indexLoopBody_ok rootPath pageRoot _ _)] at h
            have h2 := (Except.ok.injEq _ _).mp h
            rw [← h2]
            exact foldl_pageStep_isSome _ _ _ _ _ R k hk
      case str.some =>
        cases t2 with
        | int x =>
          cases x with
          | ofNat p =>
            rw [hq] at h
            simp only [pure_bind] at h
            by_cases hz : p = 0
            · rw [if_pos hz] at h
              simp at h
            · rw [if_neg hz] at h
              by_cases hg : (decide ((selectMembers R pageRoot).length ≥ 2) &&
                  (selectMembers R pageRoot).any (fun n => n.dateKey.isNone)) = true
              · rw [if_pos hg] at h
                simp at h
              · rw [if_neg hg] at h
                rw [foldlM_of_ok _ _
                  (indexLoopBody_ok rootPath pageRoot _ _)] at h
                have h2 := (Except.ok.injEq _ _).mp h
                rw [← h2]
                exact foldl_pageStep_isSome _ _ _ _ _ R k hk
          | negSucc p =>
            rw [hq] at h
            simp [except_bind_error] at h
        | str s2 => rw [hq] at h; simp [except_bind_error] at h
        | bool b2 => rw [hq] at h; simp [except_bind_error] at h
        | noneV => rw [hq] at h; simp [except_bind_error] at h
        | path p2 => rw [hq] at h; simp [except_bind_error] at h
        | list l2 => rw [hq] at h; simp [except_bind_error] at h
        | dict d2 => rw [hq] at h; simp [except_bind_error] at h
        | node n2 => rw [hq] at h; simp [except_bind_error] at h
    | int x => simp [except_bind_error] at h
    | bool b => simp [except_bind_error] at h
    | noneV => simp [except_bind_error] at h
    | path p => simp [except_bind_error] at h
    | list l => simp [except_bind_error] at h
    | dict d => simp [except_bind_error] at h
    | node n => simp [except_bind_error] at h

theorem processIndexes_isSome_mono (rootPath : PPath) :
    ∀ (specs : List Dict) (R R' : Registry),
      processIndexes rootPath R specs = Except.ok R' →
      ∀ k, (alget R k).isSome = true → (alget R' k).isSome = true := by
  intro specs
  induction specs with
  | nil =>
    intro R R' h k hk
    have h2 := (Except.ok.injEq _ _).mp h
    rw [← h2]
    exact hk
  | cons s rest ih =>
    intro R R' h k hk
    rw [processIndexes, List.foldlM_cons] at h
    cases hs : processIndex rootPath R s with
    | error e => rw [hs, except_bind_error] at h; simp at h
    | ok R1 =>
      rw [hs, except_bind_ok] at h
      exact ih R1 R' h k (processIndex_isSome_mono rootPath R s R1 hs k hk)

theorem baseLoop_isSome_mono (rootPath : PPath) :
    ∀ (files : List (PPath × Dict)) (acc R' : Registry),
      files.foldlM (baseLoopBody rootPath) acc = Except.ok R' →
      ∀ k, (alget acc k).isSome = true → (alget R' k).isSome = true := by
  intro files
  induction files with
  | nil =>
    intro acc R' h k hk
    have h2 := (Except.ok.injEq _ _).mp h
    rw [← h2]
    exact hk
  | cons f rest ih =>
    intro acc R' h k hk
    rw [List.foldlM_cons] at h
    cases hb : baseLoopBody rootPath acc f with
    | error e => rw [hb, except_bind_error] at h; simp at h
    | ok acc1 =>
      rw [hb, except_bind_ok] at h
      refine ih acc1 R' h k ?_
      rw [baseLoopBody] at hb
      cases hc : Node.create (f.1.withName (htmlNameOf f.1.name))
          (wrapContent rootPath f.2) with
      | error e => rw [hc, except_bind_error] at hb; simp at hb
      | ok node =>
        rw [hc, except_bind_ok] at hb
        have h3 := (Except.ok.injEq _ _).mp hb
        rw [← h3]
        exact alget_alset_isSome acc k node.pathStr node hk

theorem create_index_nodes_isSome_mono (rootPath : PPath) (R R' : Registry)
    (h : create_index_nodes rootPath R = Except.ok R') :
    ∀ k, (alget R k).isSome = true → (alget R' k).isSome = true := by
  intro k hk
  rw [create_index_nodes] at h
  cases hg : get_attr R "/site.html" with
  | error e => rw [hg, except_bind_error] at h; simp at h
  | ok siteAttr =>
    rw [hg, except_bind_ok] at h
    rcases hv : (alget siteAttr "indexes").getD (Value.list []) with
      s | x | b | _ | p | l | d | n
    all_goals rw [hv] at h
    · simp at h
    · simp at h
    · simp at h
    · simp at h
    · simp at h
    · have h' : (l.mapM (fun v => match v with
          | Value.dict d => pure d
          | _ => Except.error BuildErr.typeError) >>= fun specs =>
            processIndexes rootPath R specs) = Except.ok R' := h
      cases hm : l.mapM (fun v => match v with
        | Value.dict d => pure d
        | _ => Except.error BuildErr.typeError) with
      | error e => rw [hm, except_bind_error] at h'; simp at h'
      | ok specs =>
        rw [hm, except_bind_ok] at h'
        exact processIndexes_isSome_mono rootPath specs R R' h' k hk
    · simp at h
    · simp at h

/-- Every entry the page loop inserts is keyed either at the home alias
`/index.html` or at a page path `/{pageRoot}indexes/index_i.html`. -/
theorem entries_keys (rootPath : PPath) (pageRoot : String)
    (links : List String) (isHome : Bool) (chunks : List (List Node)) :
    ∀ kv ∈ (homeEntries rootPath isHome links chunks ++
        pageEntries rootPath pageRoot links chunks),
      kv.1 = "/index.html" ∨
        ∃ i, kv.1 = "/" ++ (indexPagePath pageRoot i).pstr := by
  intro kv hkv
  rcases List.mem_append.mp hkv with hh | hp
  · left
    cases chunks with
    | nil => cases hh
    | cons c0 rest =>
      rw [homeEntries] at hh
      by_cases hi : isHome
      · simp only [hi, if_true, List.mem_singleton] at hh
        rw [hh]
        rfl
      · simp [hi] at hh
  · right
    rw [pageEntries] at hp
    obtain ⟨ic, _, hpe⟩ := List.mem_map.mp hp
    exact ⟨ic.1, by rw [← hpe]; rfl⟩

/-- Primary post used by the C3 counterexample. -/
def c3Post : Node :=
  Node.mk "BaseNode" ⟨false, ["blog", "post1.html"]⟩
    [("type", Value.str "base"), ("date", Value.str "2024-01-01")] []

/-- A primary node whose output path is the site root `/index.html`. -/
def c3PrimaryIndex : Node :=
  Node.mk "BaseNode" ⟨false, ["index.html"]⟩
    [("type", Value.str "base"), ("root_path", Value.path ⟨false, []⟩)] []

/-- Registry after primary load in the C3 scenario. -/
def c3Registry : Registry :=
  [("/index.html", c3PrimaryIndex), ("/blog/post1.html", c3Post)]

/-- Home-marked index specification used by the C3 counterexample. -/
def c3Spec : Dict :=
  [("path", Value.str "/blog/"), ("home", Value.bool true)]

/-- The home-alias node synthesis builds in the C3 scenario. -/
def c3HomeNode : Node :=
  mkPageNode (mkPath "./index.html") ⟨false, []⟩ [c3Post] 0
    ["/blog/indexes/index_0.html"]

/-- The page node synthesis builds in the C3 scenario. -/
def c3PageNode : Node :=
  mkPageNode (indexPagePath "/blog/" 0) ⟨false, []⟩ [c3Post] 0
    ["/blog/indexes/index_0.html"]

/-- Registry after synthesis in the C3 scenario: the `/index.html` binding has
been replaced. -/
def c3R1 : Registry :=
  [("/index.html", c3HomeNode), ("/blog/post1.html", c3Post),
   ("/blog/indexes/index_0.html", c3PageNode)]

/-- C3 counterexample: a registry key can be reassigned to a different node
during index synthesis, and synthesis can write a key that was already present
after primary load. With a primary node registered at `/index.html` and a
home-marked `/blog/` specification, the home alias overwrites the primary
binding of `/index.html` with the synthesized page-wrapper node. -/
theorem registry_reassign_cex :
    processIndex ⟨false, []⟩ c3Registry c3Spec = Except.ok c3R1 ∧
    alget c3Registry "/index.html" = some c3PrimaryIndex ∧
    alget c3R1 "/index.html" = some c3HomeNode ∧
    c3HomeNode ≠ c3PrimaryIndex := by
  refine ⟨rfl, rfl, rfl, ?_⟩
  intro h
  have h2 : c3HomeNode.children.length = c3PrimaryIndex.children.length :=
    congrArg (fun n => n.children.length) h
  have h3 : c3HomeNode.children.length = 1 := rfl
  have h4 : c3PrimaryIndex.children.length = 0 := rfl
  rw [h3, h4] at h2
  exact one_ne_zero h2

/-- C3 amended: across the two-phase build, once a key is inserted it is never
removed — every key present in the registry before a build step is still bound
(to some node) afterwards, for the primary-load loop, for the whole index
synthesis phase, and hence across the build — but a key CAN be reassigned by
synthesis: any key whose binding changes during one specification's processing
is either the home alias `/index.html` or one of that specification's page
paths `/{prefix}indexes/index_i.html`; all other keys, in particular every key
that is not a synthesized output path, keep their exact binding, so synthesis
only adds new keys whenever its output paths are fresh. -/
theorem registry_monotone :
    (∀ (rootPath : PPath) (files : List (PPath × Dict)) (acc R' : Registry),
      files.foldlM (baseLoopBody rootPath) acc = Except.ok R' →
      ∀ k, (alget acc k).isSome = true → (alget R' k).isSome = true) ∧
    (∀ (rootPath : PPath) (R R' : Registry),
      create_index_nodes rootPath R = Except.ok R' →
      ∀ k, (alget R k).isSome = true → (alget R' k).isSome = true) ∧
    (∀ (rootPath : PPath) (nodes : Registry) (spec : Dict) (pageRoot : String)
        (P : Nat),
      alget spec "path" = some (Value.str pageRoot) →
      (alget spec "page_size" = some (Value.int (Int.ofNat P)) ∨
        (alget spec "page_size" = Option.none ∧ P = 20)) →
      P ≠ 0 →
      (∀ n ∈ selectMembers nodes pageRoot, n.dateKey.isSome = true) →
      ∀ R1, processIndex rootPath nodes spec = Except.ok R1 →
      ∀ k n, alget nodes k = some n → alget R1 k ≠ some n →
        (k = "/index.html" ∨
          ∃ i, k = "/" ++ (indexPagePath pageRoot i).pstr)) := by
  refine ⟨baseLoop_isSome_mono, create_index_nodes_isSome_mono, ?_⟩
  intro rootPath nodes spec pageRoot P hpath hsize hP hdates R1 hok k n hkn hne
  rw [processIndex_ok rootPath nodes spec pageRoot P hpath hsize hP hdates]
    at hok
  have hR1 := (Except.ok.injEq _ _).mp hok
  by_contra hcon
  push_neg at hcon
  apply hne
  rw [← hR1]
  rw [insertEntries_not_mem]
  · exact hkn
  · intro v hv
    rcases entries_keys rootPath pageRoot _ _ _ (k, v) hv with h1 | ⟨i, h2⟩
    · exact hcon.1 h1
    · exact hcon.2 i h2

/-- Minimal site registry (a `/site.html` node with no `indexes`) used to
witness C3. -/
def c3SiteRegistry : Registry :=
  [("/site.html", Node.mk "BaseNode" ⟨false, ["site.html"]⟩
    [("type", Value.str "base")] [])]

/-- Witness for C3's amended theorem: an index phase over a registry with no
specifications keeps the `/site.html` key bound. -/
theorem registry_monotone_witness :
    create_index_nodes ⟨false, []⟩ c3SiteRegistry = Except.ok c3SiteRegistry ∧
    (alget c3SiteRegistry "/site.html").isSome = true :=
  ⟨rfl,
   registry_monotone.2.1 ⟨false, []⟩ c3SiteRegistry c3SiteRegistry rfl
     "/site.html" rfl⟩

theorem lastWrite_foldl (k : String) :
    ∀ (ws : List (String × String)) (i : Option String),
      ws.foldl (fun acc w => if w.1 = k then some w.2 else acc) i =
        match lastWrite ws k with
        | some v => some v
        | Option.none => i := by
  intro ws
  induction ws with
  | nil => intro i; rfl
  | cons w rest ih =>
    intro i
    rw [List.foldl_cons]
    rw [ih]
    have h2 : lastWrite (w :: rest) k =
        match lastWrite rest k with
        | some v => some v
        | Option.none => if w.1 = k then some w.2 else Option.none := by
      show rest.foldl _ _ = _
      rw [ih]
    rw [h2]
    cases lastWrite rest k with
    | some v => rfl
    | none =>
      by_cases hw : w.1 = k
      · simp only [if_pos hw]
      · simp only [if_neg hw]

theorem applyWrites_apply (ws : List (String × String)) :
    ∀ (fs : FS) (k : String),
      applyWrites fs ws k =
        match lastWrite ws k with
        | some v => some v
        | Option.none => fs k := by
  induction ws with
  | nil => intro fs k; rfl
  | cons w rest ih =>
    intro fs k
    show applyWrites (fun j => if j = w.1 then some w.2 else fs j) rest k = _
    rw [ih]
    have h2 : lastWrite (w :: rest) k =
        match lastWrite rest k with
        | some v => some v
        | Option.none => if w.1 = k then some w.2 else Option.none := by
      show rest.foldl _ _ = _
      rw [lastWrite_foldl]
    rw [h2]
    cases lastWrite rest k with
    | some v => rfl
    | none =>
      by_cases hw : w.1 = k
      · rw [if_pos hw, if_pos hw.symm]
      · rw [if_neg hw, if_neg (fun h => hw h.symm)]

theorem applyWrites_idem (fs : FS) (ws : List (String × String)) :
    applyWrites (applyWrites fs ws) ws = applyWrites fs ws := by
  funext k
  rw [applyWrites_apply, applyWrites_apply]
  cases lastWrite ws k with
  | some v => rfl
  | none => rfl

/-- C7: render is read-only apart from its own file writes, and re-running it
is a no-op: if rendering a node against a registry turns the output directory
state `fs` into `fs'` and returns the fragment `s`, then rendering the same
node against the same registry a second time, now over `fs'`, returns the very
same fragment and performs writes that leave the directory at `fs'`
(byte-identical files). The render functions (build.py lines 166–729) read only
the node and the registry, so the second run also performs the same write
list; its re-application fixes `fs'` because each file is rewritten with
identical contents. -/
theorem render_idempotent (pretty ptext : String → String) (reg : Registry)
    (n : Node) (fs : FS) (s : String) (fs' : FS)
    (h : renderFS pretty ptext reg n fs = Except.ok (s, fs')) :
    renderFS pretty ptext reg n fs' = Except.ok (s, fs') := by
  rw [renderFS] at h ⊢
  cases hr : renderN pretty ptext reg n with
  | error e => rw [hr] at h; simp [Except.map] at h
  | ok sw =>
    rw [hr] at h
    have hmap : ∀ (g : FS),
        Except.map (fun sw => (sw.1, applyWrites g sw.2)) (Except.ok sw) =
          (Except.ok (sw.1, applyWrites g sw.2) : Except BuildErr (String × FS)) :=
      fun _ => rfl
    rw [hmap] at h
    rw [hmap]
    have h3 := (Except.ok.injEq _ _).mp h
    have hs : sw.1 = s := congrArg Prod.fst h3
    have hf : applyWrites fs sw.2 = fs' := congrArg Prod.snd h3
    rw [hs, ← hf, applyWrites_idem]

/-- Witness for C7: a concrete divider node rendered over an empty output
directory returns its fragment and leaves the directory unchanged, and the
theorem applies to that run. -/
theorem render_idempotent_witness :
    renderFS id id [] (Node.mk "DividerNode" (mkPath "./post.html") [] [])
        (fun _ => Option.none) =
      Except.ok ("<hr class=\"my-4\">", (fun _ => (Option.none : Option String))) :=
  render_idempotent id id [] (Node.mk "DividerNode" (mkPath "./post.html") [] [])
    (fun _ => Option.none) "<hr class=\"my-4\">" (fun _ => Option.none) rfl




theorem renderN_mkPageNode_doc (pretty ptext : String → String) (reg : Registry)
    (p q rootPath : PPath) (chunk : List Node) (i : Nat) (links : List String) :
    renderDoc (renderN pretty ptext reg (mkPageNode p rootPath chunk i links)) =
      renderDoc (renderN pretty ptext reg (mkPageNode q rootPath chunk i links)) := by
  simp only [mkPageNode, renderN, renderList, Node.attr]
  simp only [show alget [("type", Value.str "post_list"),
      ("post_nodes", Value.list (List.map Value.node chunk)),
      ("page_index", Value.int (i : Int)),
      ("page_links", Value.list (List.map Value.str links))] "title" =
      Option.none from rfl,
    show alget [("type", Value.str "base"), ("root_path", Value.path rootPath)]
      "root_path" = some (Value.path rootPath) from rfl,
    show ((Option.none : Option Value).getD Value.noneV) = Value.noneV from rfl,
    truthy]
  simp only [show ((false = true) = False) from by simp, if_false]
  cases hsa : get_attr reg "/site.html" with
  | error e => simp [renderDoc, except_bind_error]
  | ok a =>
    simp only [except_bind_ok, pure_bind]
    cases hh : renderHead reg [("title", (alget a "name").getD Value.noneV)] with
    | error e => simp [renderDoc, except_bind_error]
    | ok head =>
      simp only [except_bind_ok]
      cases hd : renderHeader reg with
      | error e => simp [renderDoc, except_bind_error]
      | ok header =>
        simp only [except_bind_ok]
        cases hpl : renderPostList [("type", Value.str "post_list"),
            ("post_nodes", Value.list (List.map Value.node chunk)),
            ("page_index", Value.int (i : Int)),
            ("page_links", Value.list (List.map Value.str links))] with
        | error e => simp [renderDoc, except_bind_error]
        | ok s =>
          simp [renderDoc, except_bind_ok, Except.map]

/-- C6: for a home-marked index specification with at least one member, index
synthesis registers the home tree at `/index.html` and the first page tree at
the `indexes/index_0.html` path, both built from the same deep-copied
descriptor over the same first member chunk, and rendering the two trees
against any registry (in particular the fully built one) yields identical
document text: the same fragment and byte-identical written file contents (the
only difference between the two trees is the path they are stored and written
at). Object identity is outside a value-level model; the provable content of
"independent deep-copied trees" is that each tree carries its own full
descriptor and performs its own write, which the write lists confirm. -/
theorem home_alias_render (pretty ptext : String → String) (reg : Registry)
    (rootPath : PPath) (nodes : Registry) (spec : Dict) (pageRoot : String)
    (P : Nat)
    (hpath : alget spec "path" = some (Value.str pageRoot))
    (hsize : alget spec "page_size" = some (Value.int (Int.ofNat P)) ∨
      (alget spec "page_size" = Option.none ∧ P = 20))
    (hP : P ≠ 0)
    (hdates : ∀ n ∈ selectMembers nodes pageRoot, n.dateKey.isSome = true)
    (hhome : truthy ((alget spec "home").getD (Value.bool false)) = true)
    (hmem : (selectMembers nodes pageRoot).length ≠ 0) :
    processIndex rootPath nodes spec = Except.ok
      (insertEntries nodes
        (homeEntries rootPath
            (truthy ((alget spec "home").getD (Value.bool false)))
            (linksFor pageRoot
              (sortByDateDesc (selectMembers nodes pageRoot)).length P)
            (batched P (sortByDateDesc (selectMembers nodes pageRoot))) ++
          pageEntries rootPath pageRoot
            (linksFor pageRoot
              (sortByDateDesc (selectMembers nodes pageRoot)).length P)
            (batched P (sortByDateDesc (selectMembers nodes pageRoot))))) ∧
    homeEntries rootPath
        (truthy ((alget spec "home").getD (Value.bool false)))
        (linksFor pageRoot
          (sortByDateDesc (selectMembers nodes pageRoot)).length P)
        (batched P (sortByDateDesc (selectMembers nodes pageRoot))) =
      [("/index.html",
        mkPageNode (mkPath "./index.html") rootPath
          ((sortByDateDesc (selectMembers nodes pageRoot)).take P) 0
          (linksFor pageRoot
            (sortByDateDesc (selectMembers nodes pageRoot)).length P))] ∧
    (pageEntries rootPath pageRoot
        (linksFor pageRoot
          (sortByDateDesc (selectMembers nodes pageRoot)).length P)
        (batched P (sortByDateDesc (selectMembers nodes pageRoot)))).head? =
      some ((mkPageNode (indexPagePath pageRoot 0) rootPath
          ((sortByDateDesc (selectMembers nodes pageRoot)).take P) 0
          (linksFor pageRoot
            (sortByDateDesc (selectMembers nodes pageRoot)).length P)).pathStr,
        mkPageNode (indexPagePath pageRoot 0) rootPath
          ((sortByDateDesc (selectMembers nodes pageRoot)).take P) 0
          (linksFor pageRoot
            (sortByDateDesc (selectMembers nodes pageRoot)).length P)) ∧
    renderDoc (renderN pretty ptext reg
        (mkPageNode (mkPath "./index.html") rootPath
          ((sortByDateDesc (selectMembers nodes pageRoot)).take P) 0
          (linksFor pageRoot
            (sortByDateDesc (selectMembers nodes pageRoot)).length P))) =
      renderDoc (renderN pretty ptext reg
        (mkPageNode (indexPagePath pageRoot 0) rootPath
          ((sortByDateDesc (selectMembers nodes pageRoot)).take P) 0
          (linksFor pageRoot
            (sortByDateDesc (selectMembers nodes pageRoot)).length P))) := by
  have hsLen : (sortByDateDesc (selectMembers nodes pageRoot)).length =
      (selectMembers nodes pageRoot).length := by
    simp [sortByDateDesc, List.length_insertionSort]
  have h0 : (batched P (sortByDateDesc (selectMembers nodes pageRoot)))[0]? =
      some ((sortByDateDesc (selectMembers nodes pageRoot)).take P) := by
    rw [batched_getElem P hP]
    rw [if_pos]
    · rw [Nat.zero_mul, List.drop_zero]
    · rw [Nat.zero_mul, hsLen]
      exact Nat.pos_of_ne_zero hmem
  rcases hch : batched P (sortByDateDesc (selectMembers nodes pageRoot)) with
    _ | ⟨c0, rest⟩
  · rw [hch] at h0
    simp at h0
  · rw [hch] at h0
    have hc0 : c0 = (sortByDateDesc (selectMembers nodes pageRoot)).take P := by
      have h1 : some c0 =
          some ((sortByDateDesc (selectMembers nodes pageRoot)).take P) := by
        simpa using h0
      exact Option.some.inj h1
    subst hc0
    refine ⟨?_, ?_, ?_, ?_⟩
    · rw [← hch]
      exact processIndex_ok rootPath nodes spec pageRoot P hpath hsize hP hdates
    · simp only [homeEntries, hhome, if_true]
      rw [show (mkPageNode (mkPath "./index.html") rootPath
          ((sortByDateDesc (selectMembers nodes pageRoot)).take P) 0
          (linksFor pageRoot
            (sortByDateDesc (selectMembers nodes pageRoot)).length P)).pathStr =
        "/index.html" from rfl]
    · simp only [pageEntries, pageEntry, List.enum_cons, List.map_cons,
        List.head?_cons]
    · exact renderN_mkPageNode_doc pretty ptext reg (mkPath "./index.html")
        (indexPagePath pageRoot 0) rootPath _ 0 _

/-- Primary post used by the C6 witness. -/
def c6Post : Node :=
  Node.mk "BaseNode" ⟨false, ["blog", "post1.html"]⟩
    [("type", Value.str "base"), ("date", Value.str "2024-01-01")] []

/-- Pre-synthesis registry of the C6 witness. -/
def c6Registry : Registry :=
  [("/blog/post1.html", c6Post)]

/-- Home-marked index specification of the C6 witness. -/
def c6Spec : Dict :=
  [("path", Value.str "/blog/"), ("home", Value.bool true)]

/-- Witness for C6: a concrete home-marked specification over one member
satisfies every hypothesis, and the render-equality conjunct holds for its
home tree and first page tree. -/
theorem home_alias_render_witness :
    (alget c6Spec "path" = some (Value.str "/blog/")) ∧
    truthy ((alget c6Spec "home").getD (Value.bool false)) = true ∧
    (selectMembers c6Registry "/blog/").length ≠ 0 ∧
    renderDoc (renderN id id c6Registry
        (mkPageNode (mkPath "./index.html") ⟨false, []⟩
          ((sortByDateDesc (selectMembers c6Registry "/blog/")).take 20) 0
          (linksFor "/blog/"
            (sortByDateDesc (selectMembers c6Registry "/blog/")).length 20))) =
      renderDoc (renderN id id c6Registry
        (mkPageNode (indexPagePath "/blog/" 0) ⟨false, []⟩
          ((sortByDateDesc (selectMembers c6Registry "/blog/")).take 20) 0
          (linksFor "/blog/"
            (sortByDateDesc (selectMembers c6Registry "/blog/")).length 20))) :=
  ⟨rfl, rfl, by decide,
   (home_alias_render id id c6Registry ⟨false, []⟩ c6Registry c6Spec "/blog/" 20
     rfl (Or.inr ⟨rfl, rfl⟩) (by decide) (by decide) rfl (by decide)).2.2.2⟩

end Build
